import Mathlib

/-! istiops: the VirtualService route router.

A shallow embedding of `pkg/router/virtualservice.go`.

* Go pointers to API structs are embedded by value: the slices of a decoded
  route resource hold non-nil entries and `destination` is a required field.
* A Go `error` is `Option Error`, `none` being `nil`; a `(T, error)` result is
  `Except Error T`.
* Everything the router does outside its own file is recorded in a `World`:
  the state of the mesh store, the trace of outgoing calls (selector builder
  and store), and the lines handed to the logger.
* `int32`, `uint32` are `Int`, `Nat`: the router does no arithmetic on them.
-/

set_option autoImplicit false

/-! ## Go maps -/

/-- A Go `map[string]α`, kept as its list of entries. `range` visits the
entries in list order; a map proper has no two entries with one key (`WF`). -/
structure GoMap (α : Type) where
  entries : List (String × α)
deriving DecidableEq, Repr

namespace GoMap

variable {α : Type}

/-- The literal `map[string]α{}`. -/
def empty : GoMap α := ⟨[]⟩

/-- Go `len(m)`. -/
def len (m : GoMap α) : Nat := m.entries.length

/-- Go `m[k]` with the comma-ok result. -/
def get? (m : GoMap α) (k : String) : Option α := m.entries.lookup k

/-- Assignment on the entry list: overwrite the entry of `k`, or add one. -/
def setEntries (k : String) (v : α) : List (String × α) → List (String × α)
  | [] => [(k, v)]
  | e :: rest => if e.1 = k then (k, v) :: rest else e :: setEntries k v rest

/-- Go `m[k] = v`. -/
def set (m : GoMap α) (k : String) (v : α) : GoMap α := ⟨setEntries k v m.entries⟩

/-- No key occurs twice. -/
def WF (m : GoMap α) : Prop := (m.entries.map Prod.fst).Nodup

instance (m : GoMap α) : Decidable m.WF := by
  unfold WF; infer_instance

end GoMap

/-- A Go `error` value, carried as its message. -/
abbrev Error := String

deriving instance DecidableEq for Except

/-! ## API object types (istio.io/api/networking/v1alpha3) -/

namespace v1alpha3

/-- The `MatchType` oneof of a `StringMatch`. -/
inductive StringMatch where
  | Exact (Exact : String)
  | Prefix (Prefix : String)
  | Regex (Regex : String)
deriving DecidableEq, Repr

structure HTTPMatchRequest where
  Headers : GoMap StringMatch
deriving DecidableEq, Repr

/-- The `Port` oneof of a `PortSelector`. -/
inductive PortSelector where
  | Number (Number : Nat)
  | Name (Name : String)
deriving DecidableEq, Repr

structure Destination where
  Host : String
  Subset : String := ""
  Port : Option PortSelector := none
deriving DecidableEq, Repr

structure HTTPRouteDestination where
  Destination : Destination
  Weight : Int := 0
deriving DecidableEq, Repr

structure HTTPRoute where
  Match : List HTTPMatchRequest := []
  Route : List HTTPRouteDestination := []
deriving DecidableEq, Repr

structure VirtualService where
  Hosts : List String := []
  Gateways : List String := []
  Http : List HTTPRoute := []
deriving DecidableEq, Repr

end v1alpha3

/-! ## Stored objects (istio-client-go) and list options (apimachinery) -/

namespace v1alpha32

structure VirtualService where
  Name : String
  Spec : v1alpha3.VirtualService
deriving DecidableEq, Repr

structure VirtualServiceList where
  Items : List VirtualService
deriving DecidableEq, Repr

end v1alpha32

namespace metav1

structure ListOptions where
  LabelSelector : String
deriving DecidableEq, Repr

end metav1

/-! ## Decimal numerals -/

/-- The number a list of decimal digit characters denotes: the inverse of the
`%v` rendering of a `uint32`. -/
def decimalValue (l : List Char) : Nat :=
  l.foldl (fun a c => 10 * a + (c.toNat - 48)) 0

/-! ## The router package -/

namespace router

structure Selector where
  Labels : GoMap String
deriving DecidableEq, Repr

structure Traffic where
  PodSelector : GoMap String := GoMap.empty
  RequestHeaders : GoMap String := GoMap.empty
  Weight : Int := 0
deriving DecidableEq, Repr

structure Shift where
  Port : Nat
  Hostname : String
  Selector : Selector
  Traffic : Traffic
deriving DecidableEq, Repr

structure IstioRules where
  MatchDestination : v1alpha3.HTTPRoute
deriving DecidableEq, Repr

structure IstioRouteList where
  VList : v1alpha32.VirtualServiceList
deriving DecidableEq, Repr

/-- The store handle `Istio.Versioned.NetworkingV1alpha3().VirtualServices(ns)`
over a store state `σ`: each call answers and leaves a next state. -/
structure Client (σ : Type) where
  List : String → metav1.ListOptions → σ → Except Error v1alpha32.VirtualServiceList × σ
  Update : String → v1alpha32.VirtualService → σ → Except Error v1alpha32.VirtualService × σ

structure VirtualService (σ : Type) where
  TrackingId : String
  Name : String
  Namespace : String
  Build : Nat
  Istio : Client σ

/-- A call that leaves `virtualservice.go`. -/
inductive Call where
  | StringifyLabelSelector (trackingId : String) (labels : GoMap String)
  | List (ns : String) (opts : metav1.ListOptions)
  | Update (ns : String) (virtualService : v1alpha32.VirtualService)
deriving DecidableEq, Repr

/-- One `logger.Info` line, by call site and formatted arguments. -/
inductive LogMsg where
  | creatingRoute (subsetName : String)
  | settingHeaders (requestHeaders : GoMap String) (subsetName : String)
  | settingWeight (weight : Int) (subsetName : String)
  | validating (name : String)
  | subsetRemoved (subset : String)
  | clearing (name : String)
  | updating (name : String)
deriving DecidableEq, Repr

/-- What the router can touch: store state, outgoing calls (oldest first),
log lines (oldest first, with their tracking id). -/
structure World (σ : Type) where
  store : σ
  calls : List Call
  logs : List (LogMsg × String)

namespace World

variable {σ : Type}

/-- The effect of `logger.Info(msg, trackingId)`. -/
def info (w : World σ) (msg : LogMsg) (trackingId : String) : World σ :=
  { w with logs := w.logs ++ [(msg, trackingId)] }

/-- Record an outgoing call. -/
def call (w : World σ) (c : Call) : World σ :=
  { w with calls := w.calls ++ [c] }

end World

section

variable {σ : Type}

/-- Source: `VirtualService.Create`, virtualservice.go:20-67. -/
def VirtualService.Create (v : VirtualService σ) (s : Shift) (w : World σ) :
    Except Error IstioRules × World σ :=
  let subsetName := v.Name ++ "-" ++ toString v.Build ++ "-" ++ v.Namespace
  let w := w.info (.creatingRoute subsetName) v.TrackingId
  let newMatch : v1alpha3.HTTPMatchRequest :=
    { Headers := s.Traffic.RequestHeaders.entries.foldl
        (fun headers kv => headers.set kv.1 (v1alpha3.StringMatch.Exact kv.2)) GoMap.empty }
  let defaultDestination : v1alpha3.HTTPRouteDestination :=
    { Destination :=
        { Host := s.Hostname
          Subset := subsetName
          Port := some (v1alpha3.PortSelector.Number s.Port) } }
  let newRoute : v1alpha3.HTTPRoute := {}
  let (newRoute, w) :=
    if s.Traffic.RequestHeaders.len > 0 then
      ({ newRoute with Match := newRoute.Match ++ [newMatch] },
        w.info (.settingHeaders s.Traffic.RequestHeaders subsetName) v.TrackingId)
    else (newRoute, w)
  let (defaultDestination, w) :=
    if s.Traffic.Weight ≠ 0 then
      ({ defaultDestination with Weight := s.Traffic.Weight },
        w.info (.settingWeight s.Traffic.Weight subsetName) v.TrackingId)
    else (defaultDestination, w)
  let newRoute := { newRoute with Route := newRoute.Route ++ [defaultDestination] }
  (.ok { MatchDestination := newRoute }, w)

/-- Source: `VirtualService.List`, virtualservice.go:201-216. -/
def VirtualService.List (v : VirtualService σ) (opts : metav1.ListOptions) (w : World σ) :
    Except Error IstioRouteList × World σ :=
  let r := v.Istio.List v.Namespace opts w.store
  let w := { w.call (.List v.Namespace opts) with store := r.2 }
  match r.1 with
  | .error err => (.error err, w)
  | .ok vss =>
    if vss.Items.length ≤ 0 then
      (.error ("could not find any virtualServices which matched label-selector '" ++
        opts.LabelSelector ++ "'"), w)
    else (.ok { VList := vss }, w)

/-- Source: `UpdateVirtualService`, virtualservice.go:219-226. -/
def UpdateVirtualService (vs : VirtualService σ) (virtualService : v1alpha32.VirtualService)
    (w : World σ) : Option Error × World σ :=
  let w := w.info (.updating virtualService.Name) vs.TrackingId
  let r := vs.Istio.Update vs.Namespace virtualService w.store
  let w := { w.call (.Update vs.Namespace virtualService) with store := r.2 }
  match r.1 with
  | .error err => (some err, w)
  | .ok _ => (none, w)

/-- The innermost loop of `Validate`, virtualservice.go:94-99: the error it
returns with, if any. -/
def validateRoute (weight : Int) (newSubset vsName : String) :
    List v1alpha3.HTTPRouteDestination → Option Error
  | [] => none
  | httpValue :: rest =>
    if weight = 0 ∧ httpValue.Destination.Subset = newSubset then
      some ("is not possible create an already existent subset '" ++
        httpValue.Destination.Subset ++ "' for '" ++ vsName ++ "'")
    else validateRoute weight newSubset vsName rest

/-- The loop over `vs.Spec.Http` of `Validate`, virtualservice.go:93-100. -/
def validateHttp (weight : Int) (newSubset vsName : String) :
    List v1alpha3.HTTPRoute → Option Error
  | [] => none
  | subsetValue :: rest =>
    match validateRoute weight newSubset vsName subsetValue.Route with
    | some err => some err
    | none => validateHttp weight newSubset vsName rest

/-- The loop over `vss.VList.Items` of `Validate`, virtualservice.go:90-101. -/
def validateItems (v : VirtualService σ) (s : Shift) (newSubset : String) :
    List v1alpha32.VirtualService → World σ → Option Error × World σ
  | [], w => (none, w)
  | vs :: rest, w =>
    let w := w.info (.validating vs.Name) v.TrackingId
    match validateHttp s.Traffic.Weight newSubset vs.Name vs.Spec.Http with
    | some err => (some err, w)
    | none => validateItems v s newSubset rest w

/-- Source: `VirtualService.Validate`, virtualservice.go:69-105.
`StringifyLabelSelector` is the package's selector builder, defined outside
this file: it is a parameter, and each call to it is traced. -/
def VirtualService.Validate
    (StringifyLabelSelector : String → GoMap String → Except Error String)
    (v : VirtualService σ) (s : Shift) (w : World σ) : Option Error × World σ :=
  let newSubset := v.Name ++ "-" ++ toString v.Build ++ "-" ++ v.Namespace
  if s.Traffic.Weight ≠ 0 ∧ s.Traffic.RequestHeaders.len > 0 then
    (some "a route needs to be served with a 'weight' or 'request headers', not both", w)
  else
    let w := w.call (.StringifyLabelSelector v.TrackingId s.Selector.Labels)
    match StringifyLabelSelector v.TrackingId s.Selector.Labels with
    | .error err => (some err, w)
    | .ok labelSelector =>
      let listOptions : metav1.ListOptions := { LabelSelector := labelSelector }
      match v.List listOptions w with
      | (.error err, w) => (some err, w)
      | (.ok vss, w) => validateItems v s newSubset vss.VList.Items w

/-- The scan of one rule's destinations in `Update`, virtualservice.go:127-133:
`true` when the scan leaves `Update` through `return err`. -/
def updateRoute (subsetName : String) : List v1alpha3.HTTPRouteDestination → Bool
  | [] => false
  | routeValue :: rest =>
    if routeValue.Destination.Host = subsetName then true
    else updateRoute subsetName rest

/-- The scan of `vs.Spec.Http` in `Update`, virtualservice.go:126-134. -/
def updateHttp (subsetName : String) : List v1alpha3.HTTPRoute → Bool
  | [] => false
  | httpValue :: rest =>
    if updateRoute subsetName httpValue.Route then true
    else updateHttp subsetName rest

/-- The loop over `vss.VList.Items` of `Update`, virtualservice.go:124-151.
`err` is the variable of the enclosing function that line 131 returns. -/
def updateItems (v : VirtualService σ) (s : Shift) (subsetName : String) (err : Option Error) :
    List v1alpha32.VirtualService → World σ → Option Error × World σ
  | [], w => (none, w)
  | vs :: rest, w =>
    let subsetExists := false
    if updateHttp subsetName vs.Spec.Http then (err, w)
    else
      let r : Except Error v1alpha32.VirtualService × World σ :=
        if !subsetExists then
          match v.Create s w with
          | (.error err, w) => (.error err, w)
          | (.ok newHttpRoute, w) =>
            (.ok { vs with Spec := { vs.Spec with
              Http := vs.Spec.Http ++ [newHttpRoute.MatchDestination] } }, w)
        else (.ok vs, w)
      match r with
      | (.error err, w) => (some err, w)
      | (.ok vs, w) =>
        match UpdateVirtualService v vs w with
        | (some err, w) => (some err, w)
        | (none, w) => updateItems v s subsetName err rest w

/-- Source: `VirtualService.Update`, virtualservice.go:107-155. -/
def VirtualService.Update
    (StringifyLabelSelector : String → GoMap String → Except Error String)
    (v : VirtualService σ) (s : Shift) (w : World σ) : Option Error × World σ :=
  let subsetName := v.Name ++ "-" ++ toString v.Build ++ "-" ++ v.Namespace
  let w := w.call (.StringifyLabelSelector v.TrackingId s.Selector.Labels)
  match StringifyLabelSelector v.TrackingId s.Selector.Labels with
  | .error err => (some err, w)
  | .ok labelSelector =>
    let listOptions : metav1.ListOptions := { LabelSelector := labelSelector }
    match v.List listOptions w with
    | (.error err, w) => (some err, w)
    | (.ok vss, w) => updateItems v s subsetName none vss.VList.Items w

/-- The loop over one rule's destinations in `Clear`, virtualservice.go:176-180. -/
def clearRoute (trackingId : String) :
    List v1alpha3.HTTPRouteDestination → World σ → World σ
  | [], w => w
  | httpRoute :: rest, w =>
    let w :=
      if httpRoute.Weight ≤ 0 then
        w.info (.subsetRemoved httpRoute.Destination.Subset) trackingId
      else w
    clearRoute trackingId rest w

/-- The loop over `vs.Spec.Http` in `Clear`, virtualservice.go:175-181. -/
def clearHttp (trackingId : String) : List v1alpha3.HTTPRoute → World σ → World σ
  | [], w => w
  | httpRuleValue :: rest, w =>
    clearHttp trackingId rest (clearRoute trackingId httpRuleValue.Route w)

/-- The loop over `vss.VList.Items` of `Clear`, virtualservice.go:172-195. -/
def clearItems (v : VirtualService σ) :
    List v1alpha32.VirtualService → World σ → Option Error × World σ
  | [], w => (none, w)
  | vs :: rest, w =>
    let cleanedRules : List v1alpha3.HTTPRoute := []
    let w := clearHttp v.TrackingId vs.Spec.Http w
    if vs.Spec.Http.length = 0 then
      (some ("the clear command will result in a resource '" ++ vs.Name ++
        "' without any rules which is not accepted by istio"), w)
    else
      let vs := { vs with Spec := { vs.Spec with Http := cleanedRules } }
      let w := w.info (.clearing vs.Name) v.TrackingId
      match UpdateVirtualService v vs w with
      | (some err, w) => (some err, w)
      | (none, w) => clearItems v rest w

/-- Source: `VirtualService.Clear`, virtualservice.go:157-199. -/
def VirtualService.Clear
    (StringifyLabelSelector : String → GoMap String → Except Error String)
    (v : VirtualService σ) (s : Shift) (w : World σ) : Option Error × World σ :=
  let w := w.call (.StringifyLabelSelector v.TrackingId s.Selector.Labels)
  match StringifyLabelSelector v.TrackingId s.Selector.Labels with
  | .error err => (some err, w)
  | .ok labelSelector =>
    let listOptions : metav1.ListOptions := { LabelSelector := labelSelector }
    match v.List listOptions w with
    | (.error err, w) => (some err, w)
    | (.ok vss, w) => clearItems v vss.VList.Items w

/-- The store state once the store's `Update` has been called, in namespace
`ns`, on each resource of the list in turn (whatever each call answers). -/
def storeAfterUpdates (c : Client σ) (ns : String) :
    List v1alpha32.VirtualService → σ → σ
  | [], st => st
  | x :: xs, st => storeAfterUpdates c ns xs (c.Update ns x st).2

/-- Whether the store's `Update`, called in namespace `ns` on each resource of
the list in turn from state `st`, answers every call without an error. -/
def storeAccepts (c : Client σ) (ns : String) :
    List v1alpha32.VirtualService → σ → Bool
  | [], _ => true
  | x :: xs, st =>
    match (c.Update ns x st).1 with
    | .ok _ => storeAccepts c ns xs (c.Update ns x st).2
    | .error _ => false

end

/-! ## Concrete collaborators for worked inputs -/

/-- An in-memory mesh store: its state is the list of stored route resources,
`List` answers with all of them, `Update` replaces the resource of that name. -/
def memClient : Client (List v1alpha32.VirtualService) where
  List := fun _ _ st => (.ok { Items := st }, st)
  Update := fun _ vs st => (.ok vs, st.map (fun x => if x.Name = vs.Name then vs else x))

/-- An in-memory mesh store that lists its resources and refuses every
`Update` with a conflict error, leaving its state as it is. -/
def refusingClient : Client (List v1alpha32.VirtualService) where
  List := fun _ _ st => (.ok { Items := st }, st)
  Update := fun _ _ st => (.error "conflict", st)

/-- A selector builder in the shape §4.1 of the specification gives it: an
empty mapping is an error, otherwise the `key=value` pairs joined in key order. -/
def joinSelector (_trackingId : String) (labels : GoMap String) : Except Error String :=
  if labels.len = 0 then .error "label-selector must not be empty"
  else .ok (",".intercalate
    ((labels.entries.map (fun kv => kv.1 ++ "=" ++ kv.2)).insertionSort (fun a b => a ≤ b)))

end router

/-! ## Worked inputs -/

namespace router

/-- The router of `main.go` with a short service name, over the in-memory store. -/
def vApi : VirtualService (List v1alpha32.VirtualService) :=
  { TrackingId := "t", Name := "api", Namespace := "default", Build := 2, Istio := memClient }

/-- The shift of `main.go` with weight `weight` and request headers `headers`. -/
def shiftOf (weight : Int) (headers : List (String × String)) : Shift :=
  { Port := 5000, Hostname := "api.domain.io",
    Selector := { Labels := ⟨[("environment", "pipeline-go")]⟩ },
    Traffic := { RequestHeaders := ⟨headers⟩, Weight := weight } }

/-- A stored route resource `name` with the rule list `http`. -/
def vsOf (name : String) (http : List v1alpha3.HTTPRoute) : v1alpha32.VirtualService :=
  { Name := name, Spec := { Hosts := ["api.domain.io"], Http := http } }

/-- A rule with one destination and no match. -/
def ruleTo (subset : String) (weight : Int) : v1alpha3.HTTPRoute :=
  { Route := [{ Destination := { Host := "api.domain.io", Subset := subset }, Weight := weight }] }

/-- A rule with one destination, hosted at `host`, and no match. -/
def ruleAt (host subset : String) (weight : Int) : v1alpha3.HTTPRoute :=
  { Route := [{ Destination := { Host := host, Subset := subset }, Weight := weight }] }

/-- A rule matched on one exact header, with one destination of weight 0. -/
def ruleOn (header value subset : String) : v1alpha3.HTTPRoute :=
  { Match := [{ Headers := ⟨[(header, v1alpha3.StringMatch.Exact value)]⟩ }]
    Route := [{ Destination := { Host := "api.domain.io", Subset := subset } }] }

/-- A world whose store holds `items`, before any call or log line. -/
def worldOf (items : List v1alpha32.VirtualService) : World (List v1alpha32.VirtualService) :=
  { store := items, calls := [], logs := [] }

end router

/-! ## Lemmas on Go maps -/

namespace GoMap

variable {α : Type}

theorem setEntries_of_not_mem (k : String) (v : α) (l : List (String × α))
    (h : k ∉ l.map Prod.fst) : setEntries k v l = l ++ [(k, v)] := by
  induction l with
  | nil => rfl
  | cons e l ih =>
    have h1 : e.1 ≠ k := fun he => h (by simp [he])
    have h2 : k ∉ l.map Prod.fst := fun hm => h (by simp at hm ⊢; exact Or.inr hm)
    simp [setEntries, h1, ih h2]

/-- Ranging over a map proper and assigning `f value` under each key, on top of
entries with other keys, adds the entries in order. -/
theorem foldl_set_entries {β : Type} (f : β → α) (es : List (String × β))
    (acc : GoMap α) (hnd : (es.map Prod.fst).Nodup)
    (hdis : ∀ k ∈ es.map Prod.fst, k ∉ acc.entries.map Prod.fst) :
    es.foldl (fun m kv => m.set kv.1 (f kv.2)) acc =
      ⟨acc.entries ++ es.map (fun kv => (kv.1, f kv.2))⟩ := by
  induction es generalizing acc with
  | nil => simp
  | cons e es ih =>
    have hnd2 : e.1 ∉ es.map Prod.fst ∧ (es.map Prod.fst).Nodup := List.nodup_cons.1 hnd
    have he : e.1 ∉ acc.entries.map Prod.fst := hdis e.1 (by simp)
    rw [List.foldl_cons, ih]
    · simp [set, setEntries_of_not_mem _ _ _ he]
    · exact hnd2.2
    · intro k hk
      have hk1 : k ∉ acc.entries.map Prod.fst := hdis k (by simp at hk ⊢; exact Or.inr hk)
      have hk2 : k ≠ e.1 := by
        rintro rfl
        exact hnd2.1 hk
      simp only [set, setEntries_of_not_mem _ _ _ he, List.map_append, List.map_cons,
        List.map_nil, List.mem_append, List.mem_singleton, not_or]
      exact ⟨hk1, hk2⟩

theorem lookup_map_snd {β : Type} (f : β → α) (k : String) (es : List (String × β)) :
    (es.map (fun kv => (kv.1, f kv.2))).lookup k = (es.lookup k).map f := by
  induction es with
  | nil => rfl
  | cons e es ih =>
    obtain ⟨a, b⟩ := e
    by_cases h : k = a
    · subst h; simp [List.lookup]
    · have : (k == a) = false := by simpa using h
      simp [List.lookup, this, ih]

end GoMap

/-! ## Lemmas on the subset name -/

theorem digitChar_decimal : ∀ k < 10, (Nat.digitChar k).toNat - 48 = k ∧ Nat.digitChar k ≠ '-' := by
  decide

theorem decimalValue_append (l : List Char) (c : Char) :
    decimalValue (l ++ [c]) = 10 * decimalValue l + (c.toNat - 48) := by
  simp [decimalValue, List.foldl_append]

/-- The digits `Nat.toDigitsCore` puts in front denote the number, and none is
a hyphen. -/
theorem toDigitsCore_spec : ∀ (fuel n : Nat) (ds : List Char), n < fuel →
    ∃ l, Nat.toDigitsCore 10 fuel n ds = l ++ ds ∧ decimalValue l = n ∧ '-' ∉ l := by
  intro fuel
  induction fuel with
  | zero => intro n ds h; omega
  | succ fuel ih =>
    intro n ds h
    have hd := digitChar_decimal (n % 10) (Nat.mod_lt _ (by decide))
    unfold Nat.toDigitsCore
    by_cases h0 : n / 10 = 0
    · refine ⟨[Nat.digitChar (n % 10)], by simp [h0], ?_, ?_⟩
      · have hn : n % 10 = n := by omega
        have hv : decimalValue [Nat.digitChar (n % 10)] = n % 10 := by
          simpa [decimalValue] using hd.1
        exact hv.trans hn
      · simpa using hd.2.symm
    · obtain ⟨l, hl, hv, hm⟩ := ih (n / 10) (Nat.digitChar (n % 10) :: ds) (by omega)
      refine ⟨l ++ [Nat.digitChar (n % 10)], by simp [h0, hl], ?_, ?_⟩
      · rw [decimalValue_append, hv, hd.1]; omega
      · simp only [List.mem_append, List.mem_singleton, not_or]
        exact ⟨hm, hd.2.symm⟩

theorem repr_data_spec (n : Nat) : decimalValue (Nat.repr n).data = n ∧ '-' ∉ (Nat.repr n).data := by
  obtain ⟨l, hl, hv, hm⟩ := toDigitsCore_spec (n + 1) n [] (by omega)
  have : (Nat.repr n).data = l := by
    simp [Nat.repr, Nat.toDigits, hl, List.asString]
  rw [this]
  exact ⟨hv, hm⟩

/-- A list is cut in one way only at the first occurrence of `c`. -/
theorem split_at_first (c : Char) : ∀ (a a' r r' : List Char), c ∉ a → c ∉ a' →
    a ++ c :: r = a' ++ c :: r' → a = a' ∧ r = r' := by
  intro a
  induction a with
  | nil =>
    intro a' r r' _ ha' h
    cases a' with
    | nil => simpa using h
    | cons x a' =>
      simp at h
      exact absurd (by simp [h.1]) ha'
  | cons x a ih =>
    intro a' r r' ha ha' h
    cases a' with
    | nil =>
      simp at h
      exact absurd (by simp [h.1]) ha
    | cons y a' =>
      simp only [List.cons_append, List.cons.injEq] at h
      obtain ⟨h1, h2⟩ := ih a' r r' (fun hm => ha (List.mem_cons_of_mem _ hm))
        (fun hm => ha' (List.mem_cons_of_mem _ hm)) h.2
      exact ⟨by rw [h.1, h1], h2⟩

theorem reverse_two_splits (c : Char) (a d s : List Char) :
    (a ++ c :: (d ++ c :: s)).reverse = s.reverse ++ c :: (d.reverse ++ c :: a.reverse) := by
  simp

/-- The subset name determines name, build and namespace when no name, or no
namespace, has a hyphen. -/
theorem subsetName_inj (n1 n2 s1 s2 : String) (b1 b2 : Nat)
    (hfree : ('-' ∉ n1.data ∧ '-' ∉ n2.data) ∨ ('-' ∉ s1.data ∧ '-' ∉ s2.data))
    (h : n1 ++ "-" ++ toString b1 ++ "-" ++ s1 = n2 ++ "-" ++ toString b2 ++ "-" ++ s2) :
    n1 = n2 ∧ b1 = b2 ∧ s1 = s2 := by
  have hd := congrArg String.data h
  simp only [String.data_append] at hd
  have r1 := repr_data_spec b1
  have r2 := repr_data_spec b2
  have t1 : (toString b1).data = (Nat.repr b1).data := rfl
  have t2 : (toString b2).data = (Nat.repr b2).data := rfl
  rw [t1, t2] at hd
  simp only [List.append_assoc, List.singleton_append] at hd
  have hd2 : n1.data ++ '-' :: ((Nat.repr b1).data ++ '-' :: s1.data) =
      n2.data ++ '-' :: ((Nat.repr b2).data ++ '-' :: s2.data) := hd
  rcases hfree with hf | hf
  · obtain ⟨ha, hrest⟩ := split_at_first '-' _ _ _ _ hf.1 hf.2 hd2
    obtain ⟨hb, hc⟩ := split_at_first '-' _ _ _ _ r1.2 r2.2 hrest
    refine ⟨String.ext ha, ?_, String.ext hc⟩
    rw [← r1.1, ← r2.1, hb]
  · have hr := congrArg List.reverse hd2
    rw [reverse_two_splits, reverse_two_splits] at hr
    obtain ⟨hc, hrest⟩ := split_at_first '-' _ _ _ _ (by simpa using hf.1) (by simpa using hf.2) hr
    obtain ⟨hb, ha⟩ := split_at_first '-' _ _ _ _ (by simpa using r1.2) (by simpa using r2.2) hrest
    refine ⟨String.ext (List.reverse_injective ha), ?_, String.ext (List.reverse_injective hc)⟩
    rw [← r1.1, ← r2.1, List.reverse_injective hb]

/-! ## Lemmas on the loops -/

namespace router

section

variable {σ : Type}

theorem validateRoute_ne_none (weight : Int) (newSubset vsName : String)
    (ds : List v1alpha3.HTTPRouteDestination) :
    validateRoute weight newSubset vsName ds ≠ none ↔
      weight = 0 ∧ ∃ d ∈ ds, d.Destination.Subset = newSubset := by
  induction ds with
  | nil => simp [validateRoute]
  | cons d ds ih =>
    unfold validateRoute
    by_cases h : weight = 0 ∧ d.Destination.Subset = newSubset
    · simp [h]
    · rw [if_neg h, ih]
      constructor
      · rintro ⟨h0, x, hx, hs⟩
        exact ⟨h0, x, List.mem_cons_of_mem _ hx, hs⟩
      · rintro ⟨h0, x, hx, hs⟩
        rcases List.mem_cons.1 hx with rfl | hx
        · exact absurd ⟨h0, hs⟩ h
        · exact ⟨h0, x, hx, hs⟩

theorem validateHttp_ne_none (weight : Int) (newSubset vsName : String)
    (rs : List v1alpha3.HTTPRoute) :
    validateHttp weight newSubset vsName rs ≠ none ↔
      weight = 0 ∧ ∃ r ∈ rs, ∃ d ∈ r.Route, d.Destination.Subset = newSubset := by
  induction rs with
  | nil => simp [validateHttp]
  | cons r rs ih =>
    unfold validateHttp
    cases hr : validateRoute weight newSubset vsName r.Route with
    | some e =>
      have h := (validateRoute_ne_none weight newSubset vsName r.Route).1 (by simp [hr])
      simp only [ne_eq, reduceCtorEq, not_false_eq_true, true_iff]
      exact ⟨h.1, r, List.mem_cons_self _ _, h.2⟩
    | none =>
      have h := (not_congr (validateRoute_ne_none weight newSubset vsName r.Route)).1
        (by simp [hr])
      simp only [ih]
      constructor
      · rintro ⟨h0, x, hx, hd⟩
        exact ⟨h0, x, List.mem_cons_of_mem _ hx, hd⟩
      · rintro ⟨h0, x, hx, hd⟩
        rcases List.mem_cons.1 hx with rfl | hx
        · exact absurd ⟨h0, hd⟩ h
        · exact ⟨h0, x, hx, hd⟩

theorem validateItems_ne_none (v : VirtualService σ) (s : Shift) (newSubset : String)
    (items : List v1alpha32.VirtualService) (w : World σ) :
    (validateItems v s newSubset items w).1 ≠ none ↔
      s.Traffic.Weight = 0 ∧ ∃ vs ∈ items, ∃ r ∈ vs.Spec.Http, ∃ d ∈ r.Route,
        d.Destination.Subset = newSubset := by
  induction items generalizing w with
  | nil => simp [validateItems]
  | cons vs items ih =>
    unfold validateItems
    cases hr : validateHttp s.Traffic.Weight newSubset vs.Name vs.Spec.Http with
    | some e =>
      have h := (validateHttp_ne_none s.Traffic.Weight newSubset vs.Name vs.Spec.Http).1
        (by simp [hr])
      simp only [ne_eq, reduceCtorEq, not_false_eq_true, true_iff]
      exact ⟨h.1, vs, List.mem_cons_self _ _, h.2⟩
    | none =>
      have h := (not_congr
        (validateHttp_ne_none s.Traffic.Weight newSubset vs.Name vs.Spec.Http)).1 (by simp [hr])
      simp only [ih]
      constructor
      · rintro ⟨h0, x, hx, hd⟩
        exact ⟨h0, x, List.mem_cons_of_mem _ hx, hd⟩
      · rintro ⟨h0, x, hx, hd⟩
        rcases List.mem_cons.1 hx with rfl | hx
        · exact absurd ⟨h0, hd⟩ h
        · exact ⟨h0, x, hx, hd⟩

/-- The result of `Create`, in closed form. -/
theorem Create_fst (v : VirtualService σ) (s : Shift) (w : World σ) :
    (v.Create s w).1 = .ok { MatchDestination :=
      { Match :=
          if s.Traffic.RequestHeaders.len > 0 then
            [{ Headers := s.Traffic.RequestHeaders.entries.foldl
                (fun headers kv => headers.set kv.1 (v1alpha3.StringMatch.Exact kv.2))
                GoMap.empty }]
          else []
        Route := [{ Destination :=
                      { Host := s.Hostname
                        Subset := v.Name ++ "-" ++ toString v.Build ++ "-" ++ v.Namespace
                        Port := some (v1alpha3.PortSelector.Number s.Port) }
                    Weight := s.Traffic.Weight }] } } := by
  unfold VirtualService.Create
  by_cases hh : s.Traffic.RequestHeaders.len > 0 <;> by_cases hw : s.Traffic.Weight = 0 <;>
    simp [hh, hw]

/-- The rule `Create` builds does not depend on the world it runs in. -/
theorem Create_ok (v : VirtualService σ) (s : Shift) :
    ∃ ir, ∀ w : World σ, (v.Create s w).1 = .ok ir :=
  ⟨_, fun w => Create_fst v s w⟩

/-- `Create` only logs. -/
theorem Create_frame (v : VirtualService σ) (s : Shift) (w : World σ) :
    (v.Create s w).2.store = w.store ∧ (v.Create s w).2.calls = w.calls := by
  unfold VirtualService.Create
  by_cases hh : s.Traffic.RequestHeaders.len > 0 <;> by_cases hw : s.Traffic.Weight = 0 <;>
    simp [hh, hw, World.info]

/-- The router's `List` makes exactly one store call, whatever the answer. -/
theorem List_calls (v : VirtualService σ) (opts : metav1.ListOptions) (w : World σ) :
    (v.List opts w).2.calls = w.calls ++ [Call.List v.Namespace opts] := by
  unfold VirtualService.List
  cases h : (v.Istio.List v.Namespace opts w.store).1 with
  | error e => simp [h, World.call]
  | ok vss =>
    by_cases hl : vss.Items = [] <;> simp [h, hl, World.call]

/-- `UpdateVirtualService` makes exactly one store call, whatever the answer. -/
theorem UpdateVirtualService_calls (v : VirtualService σ) (x : v1alpha32.VirtualService)
    (w : World σ) :
    (UpdateVirtualService v x w).2.calls = w.calls ++ [Call.Update v.Namespace x] := by
  unfold UpdateVirtualService
  cases h : (v.Istio.Update v.Namespace x w.store).1 <;>
    simp [h, World.call, World.info]

/-- `UpdateVirtualService` returns no error exactly when the store's answer is
not an error. -/
theorem UpdateVirtualService_fst (v : VirtualService σ) (x : v1alpha32.VirtualService)
    (w : World σ) :
    (UpdateVirtualService v x w).1 =
      match (v.Istio.Update v.Namespace x w.store).1 with
      | .error err => some err
      | .ok _ => none := by
  unfold UpdateVirtualService
  have hst : (w.info (.updating x.Name) v.TrackingId).store = w.store := rfl
  simp only [hst]
  cases h : (v.Istio.Update v.Namespace x w.store).1 <;> simp [h]

/-- `UpdateVirtualService` leaves the store in the state the store's `Update`
answered with. -/
theorem UpdateVirtualService_store (v : VirtualService σ) (x : v1alpha32.VirtualService)
    (w : World σ) :
    (UpdateVirtualService v x w).2.store = (v.Istio.Update v.Namespace x w.store).2 := by
  unfold UpdateVirtualService
  cases h : (v.Istio.Update v.Namespace x w.store).1 <;>
    simp [h, World.call, World.info]

theorem updateRoute_eq_false (subsetName : String) (ds : List v1alpha3.HTTPRouteDestination) :
    updateRoute subsetName ds = false ↔ ∀ d ∈ ds, d.Destination.Host ≠ subsetName := by
  induction ds with
  | nil => simp [updateRoute]
  | cons d ds ih =>
    unfold updateRoute
    by_cases h : d.Destination.Host = subsetName <;> simp [h, ih]

theorem updateHttp_eq_false (subsetName : String) (rs : List v1alpha3.HTTPRoute) :
    updateHttp subsetName rs = false ↔
      ∀ r ∈ rs, ∀ d ∈ r.Route, d.Destination.Host ≠ subsetName := by
  induction rs with
  | nil => simp [updateHttp]
  | cons r rs ih =>
    unfold updateHttp
    cases h : updateRoute subsetName r.Route with
    | true =>
      have h2 := (not_congr (updateRoute_eq_false subsetName r.Route)).1 (by simp [h])
      simp only [if_true, Bool.true_eq_false, false_iff]
      intro hall
      exact h2 (hall r (List.mem_cons_self _ _))
    | false =>
      have h2 := (updateRoute_eq_false subsetName r.Route).1 h
      simp only [Bool.false_eq_true, if_false, ih, List.mem_cons, forall_eq_or_imp]
      exact ⟨fun hall => ⟨h2, hall⟩, fun hall => hall.2⟩

/-- Every call the loop of `Update` makes is a store `Update`. -/
theorem updateItems_calls (v : VirtualService σ) (s : Shift) (subsetName : String)
    (err : Option Error) (items : List v1alpha32.VirtualService) (w : World σ) :
    ∃ xs : List v1alpha32.VirtualService,
      (updateItems v s subsetName err items w).2.calls =
        w.calls ++ xs.map (Call.Update v.Namespace) := by
  induction items generalizing w with
  | nil => exact ⟨[], by simp [updateItems]⟩
  | cons vs items ih =>
    obtain ⟨ir, hir⟩ := Create_ok v s
    have hc : v.Create s w = (.ok ir, (v.Create s w).2) := Prod.ext (hir w) rfl
    unfold updateItems
    by_cases hvs : updateHttp subsetName vs.Spec.Http = true
    · exact ⟨[], by simp [hvs]⟩
    · simp only [hvs, Bool.false_eq_true, if_false, Bool.not_false, if_true]
      rw [hc]
      simp only []
      have hu2 := UpdateVirtualService_calls v
        { vs with Spec := { vs.Spec with Http := vs.Spec.Http ++ [ir.MatchDestination] } }
        (v.Create s w).2
      rcases hu : UpdateVirtualService v
        { vs with Spec := { vs.Spec with Http := vs.Spec.Http ++ [ir.MatchDestination] } }
        (v.Create s w).2 with ⟨e, w2⟩
      rw [hu] at hu2
      cases e with
      | some e =>
        refine ⟨[{ vs with Spec := { vs.Spec with
          Http := vs.Spec.Http ++ [ir.MatchDestination] } }], ?_⟩
        simp only []
        simpa [(Create_frame v s w).2] using hu2
      | none =>
        obtain ⟨xs, hxs⟩ := ih w2
        refine ⟨{ vs with Spec := { vs.Spec with
          Http := vs.Spec.Http ++ [ir.MatchDestination] } } :: xs, ?_⟩
        simp only []
        rw [hxs]
        have hu3 : w2.calls = w.calls ++ [Call.Update v.Namespace { vs with Spec := { vs.Spec with
          Http := vs.Spec.Http ++ [ir.MatchDestination] } }] := by
          simpa [(Create_frame v s w).2] using hu2
        rw [hu3]
        simp

theorem clearRoute_frame (trackingId : String) (ds : List v1alpha3.HTTPRouteDestination)
    (w : World σ) :
    (clearRoute trackingId ds w).store = w.store ∧
      (clearRoute trackingId ds w).calls = w.calls := by
  induction ds generalizing w with
  | nil => simp [clearRoute]
  | cons d ds ih =>
    unfold clearRoute
    by_cases h : d.Weight ≤ 0 <;> simp [h, ih, World.info]

/-- The scan of `Clear` over the rules of a resource only logs. -/
theorem clearHttp_frame (trackingId : String) (rs : List v1alpha3.HTTPRoute) (w : World σ) :
    (clearHttp trackingId rs w).store = w.store ∧
      (clearHttp trackingId rs w).calls = w.calls := by
  induction rs generalizing w with
  | nil => simp [clearHttp]
  | cons r rs ih =>
    unfold clearHttp
    simp [ih, clearRoute_frame]

/-- One round of the loop of `Clear` on a resource that has rules. -/
theorem clearItems_cons (v : VirtualService σ) (x : v1alpha32.VirtualService)
    (rest : List v1alpha32.VirtualService) (w : World σ) (hx : x.Spec.Http ≠ []) :
    clearItems v (x :: rest) w =
      match UpdateVirtualService v { x with Spec := { x.Spec with Http := [] } }
        ((clearHttp v.TrackingId x.Spec.Http w).info (.clearing x.Name) v.TrackingId) with
      | (some err, w) => (some err, w)
      | (none, w) => clearItems v rest w := by
  have hlen : ¬ x.Spec.Http.length = 0 := fun h => hx (List.length_eq_zero.1 h)
  rw [clearItems]
  simp only [hlen, if_false]

/-- The loop of `Clear` stops with an error at the first resource without
rules, having submitted only resources before it. -/
theorem clearItems_stops (v : VirtualService σ)
    (pre : List v1alpha32.VirtualService) (vs : v1alpha32.VirtualService)
    (post : List v1alpha32.VirtualService) (w : World σ)
    (hpre : ∀ x ∈ pre, x.Spec.Http ≠ []) (hvs : vs.Spec.Http = []) :
    (clearItems v (pre ++ vs :: post) w).1 ≠ none ∧
      ∃ n, n ≤ pre.length ∧
        (clearItems v (pre ++ vs :: post) w).2.calls =
          w.calls ++ (pre.take n).map (fun x => Call.Update v.Namespace
            { x with Spec := { x.Spec with Http := [] } }) ∧
        (clearItems v (pre ++ vs :: post) w).2.store =
          storeAfterUpdates v.Istio v.Namespace
            ((pre.take n).map (fun x => { x with Spec := { x.Spec with Http := [] } }))
            w.store := by
  induction pre generalizing w with
  | nil =>
    refine ⟨?_, 0, Nat.le_refl _, ?_, ?_⟩
    · simp [clearItems, hvs]
    · simp [clearItems, hvs, clearHttp]
    · simp [clearItems, hvs, clearHttp, storeAfterUpdates]
  | cons x pre ih =>
    have hx : x.Spec.Http ≠ [] := hpre x (List.mem_cons_self _ _)
    have hu2 := UpdateVirtualService_calls v { x with Spec := { x.Spec with Http := [] } }
      ((clearHttp v.TrackingId x.Spec.Http w).info (.clearing x.Name) v.TrackingId)
    have hu3 := UpdateVirtualService_store v { x with Spec := { x.Spec with Http := [] } }
      ((clearHttp v.TrackingId x.Spec.Http w).info (.clearing x.Name) v.TrackingId)
    have hcalls : ((clearHttp v.TrackingId x.Spec.Http w).info (.clearing x.Name)
        v.TrackingId).calls = w.calls := (clearHttp_frame v.TrackingId x.Spec.Http w).2
    have hstore : ((clearHttp v.TrackingId x.Spec.Http w).info (.clearing x.Name)
        v.TrackingId).store = w.store := (clearHttp_frame v.TrackingId x.Spec.Http w).1
    rw [hcalls] at hu2
    rw [hstore] at hu3
    rw [List.cons_append, clearItems_cons v x _ w hx]
    rcases hu : UpdateVirtualService v { x with Spec := { x.Spec with Http := [] } }
      ((clearHttp v.TrackingId x.Spec.Http w).info (.clearing x.Name) v.TrackingId)
      with ⟨e, w2⟩
    rw [hu] at hu2 hu3
    have hw2 : w2.calls = w.calls ++
        [Call.Update v.Namespace { x with Spec := { x.Spec with Http := [] } }] := hu2
    have hs2 : w2.store = (v.Istio.Update v.Namespace
        { x with Spec := { x.Spec with Http := [] } } w.store).2 := hu3
    cases e with
    | some e =>
      refine ⟨by simp, 1, by simp, ?_, ?_⟩
      · simpa using hw2
      · simpa [storeAfterUpdates] using hs2
    | none =>
      obtain ⟨h1, n, hn, h2, h3⟩ := ih w2 (fun y hy => hpre y (List.mem_cons_of_mem _ hy))
      refine ⟨h1, n + 1, by simpa using hn, ?_, ?_⟩
      · simp only []
        rw [h2, hw2]
        simp
      · simp only []
        rw [h3, hs2]
        simp [storeAfterUpdates]

/-- The loop of `Clear` over resources that all have rules, against a store
whose `Update` succeeds, returns no error. -/
theorem clearItems_ok (v : VirtualService σ)
    (hup : ∀ ns x st, ∃ r, (v.Istio.Update ns x st).1 = .ok r)
    (items : List v1alpha32.VirtualService) (w : World σ)
    (hall : ∀ x ∈ items, x.Spec.Http ≠ []) :
    (clearItems v items w).1 = none := by
  induction items generalizing w with
  | nil => simp [clearItems]
  | cons x items ih =>
    have hx : x.Spec.Http ≠ [] := hall x (List.mem_cons_self _ _)
    obtain ⟨r, hr⟩ := hup v.Namespace { x with Spec := { x.Spec with Http := [] } }
      ((clearHttp v.TrackingId x.Spec.Http w).info (.clearing x.Name) v.TrackingId).store
    have hu1 := UpdateVirtualService_fst v { x with Spec := { x.Spec with Http := [] } }
      ((clearHttp v.TrackingId x.Spec.Http w).info (.clearing x.Name) v.TrackingId)
    rw [hr] at hu1
    rw [clearItems_cons v x _ w hx]
    rcases hu : UpdateVirtualService v { x with Spec := { x.Spec with Http := [] } }
      ((clearHttp v.TrackingId x.Spec.Http w).info (.clearing x.Name) v.TrackingId)
      with ⟨e, w2⟩
    rw [hu] at hu1
    have he : e = none := hu1
    subst he
    exact ih w2 (fun y hy => hall y (List.mem_cons_of_mem _ hy))

/-- One round of the loop of `Update` on a resource that does not leave
through line 131. -/
theorem updateItems_cons_miss (v : VirtualService σ) (s : Shift) (subsetName : String)
    (err : Option Error) (ir : IstioRules)
    (hir : ∀ w : World σ, (v.Create s w).1 = .ok ir)
    (x : v1alpha32.VirtualService) (rest : List v1alpha32.VirtualService) (w : World σ)
    (hx : updateHttp subsetName x.Spec.Http = false) :
    updateItems v s subsetName err (x :: rest) w =
      match UpdateVirtualService v
        { x with Spec := { x.Spec with Http := x.Spec.Http ++ [ir.MatchDestination] } }
        (v.Create s w).2 with
      | (some err, w) => (some err, w)
      | (none, w) => updateItems v s subsetName err rest w := by
  have hc : v.Create s w = (.ok ir, (v.Create s w).2) := Prod.ext (hir w) rfl
  rw [updateItems]
  simp only [hx, Bool.false_eq_true, if_false, Bool.not_false, if_true]
  rw [hc]

/-- The calls of the loop of `Clear`: store `Update`s of an initial part of the
list, each with an empty rule list; against a store whose `Update` succeeds
that part reaches past every resource that has rules and is preceded only by
resources that have rules. -/
theorem clearItems_calls (v : VirtualService σ)
    (items : List v1alpha32.VirtualService) (w : World σ) :
    ∃ n, n ≤ items.length ∧
      (clearItems v items w).2.calls =
        w.calls ++ (items.take n).map (fun x => Call.Update v.Namespace
          { x with Spec := { x.Spec with Http := [] } }) ∧
      (clearItems v items w).2.store =
        storeAfterUpdates v.Istio v.Namespace
          ((items.take n).map (fun x => { x with Spec := { x.Spec with Http := [] } }))
          w.store ∧
      ((∀ ns x st, ∃ r, (v.Istio.Update ns x st).1 = .ok r) →
        ∀ pre x post, items = pre ++ x :: post → (∀ y ∈ pre, y.Spec.Http ≠ []) →
          x.Spec.Http ≠ [] → pre.length < n) := by
  induction items generalizing w with
  | nil =>
    refine ⟨0, Nat.le_refl _, by simp [clearItems], by simp [clearItems, storeAfterUpdates],
      ?_⟩
    intro _ pre x post h
    simp at h
  | cons a items ih =>
    by_cases ha : a.Spec.Http = []
    · refine ⟨0, Nat.zero_le _, by simp [clearItems, ha, clearHttp],
        by simp [clearItems, ha, clearHttp, storeAfterUpdates], ?_⟩
      intro _ pre x post h hpre hx
      cases pre with
      | nil =>
        simp only [List.nil_append, List.cons.injEq] at h
        exact absurd (h.1 ▸ ha) hx
      | cons b pre =>
        simp only [List.cons_append, List.cons.injEq] at h
        exact absurd (h.1 ▸ ha) (hpre b (List.mem_cons_self _ _))
    · have hu1 := UpdateVirtualService_fst v { a with Spec := { a.Spec with Http := [] } }
        ((clearHttp v.TrackingId a.Spec.Http w).info (.clearing a.Name) v.TrackingId)
      have hu2 := UpdateVirtualService_calls v { a with Spec := { a.Spec with Http := [] } }
        ((clearHttp v.TrackingId a.Spec.Http w).info (.clearing a.Name) v.TrackingId)
      have hu3 := UpdateVirtualService_store v { a with Spec := { a.Spec with Http := [] } }
        ((clearHttp v.TrackingId a.Spec.Http w).info (.clearing a.Name) v.TrackingId)
      have hcalls : ((clearHttp v.TrackingId a.Spec.Http w).info (.clearing a.Name)
          v.TrackingId).calls = w.calls := (clearHttp_frame v.TrackingId a.Spec.Http w).2
      have hstore : ((clearHttp v.TrackingId a.Spec.Http w).info (.clearing a.Name)
          v.TrackingId).store = w.store := (clearHttp_frame v.TrackingId a.Spec.Http w).1
      rw [hcalls] at hu2
      rw [hstore] at hu3
      rw [clearItems_cons v a _ w ha]
      rcases hu : UpdateVirtualService v { a with Spec := { a.Spec with Http := [] } }
        ((clearHttp v.TrackingId a.Spec.Http w).info (.clearing a.Name) v.TrackingId)
        with ⟨e, w2⟩
      rw [hu] at hu1 hu2 hu3
      have hs2 : w2.store = (v.Istio.Update v.Namespace
          { a with Spec := { a.Spec with Http := [] } } w.store).2 := hu3
      cases e with
      | some e =>
        refine ⟨1, by simp, by simpa using hu2, by simpa [storeAfterUpdates] using hs2, ?_⟩
        intro hup
        obtain ⟨r, hr⟩ := hup v.Namespace { a with Spec := { a.Spec with Http := [] } }
          ((clearHttp v.TrackingId a.Spec.Http w).info (.clearing a.Name) v.TrackingId).store
        rw [hr] at hu1
        simp at hu1
      | none =>
        have hw2 : w2.calls = w.calls ++
            [Call.Update v.Namespace { a with Spec := { a.Spec with Http := [] } }] := hu2
        obtain ⟨n, hn, h2, h4, h3⟩ := ih w2
        refine ⟨n + 1, by simpa using hn, ?_, ?_, ?_⟩
        · simp only []
          rw [h2, hw2]
          simp
        · simp only []
          rw [h4, hs2]
          simp [storeAfterUpdates]
        · intro hup pre x post h hpre hx
          cases pre with
          | nil => simp
          | cons b pre =>
            simp only [List.cons_append, List.cons.injEq] at h
            have := h3 hup pre x post h.2 (fun y hy => hpre y (List.mem_cons_of_mem _ hy)) hx
            simpa using this

/-- A store whose `Update` never fails accepts every sequence of `Update`s. -/
theorem storeAccepts_of_forall (c : Client σ) (ns : String)
    (hup : ∀ ns x st, ∃ r, (c.Update ns x st).1 = .ok r)
    (xs : List v1alpha32.VirtualService) (st : σ) : storeAccepts c ns xs st = true := by
  induction xs generalizing st with
  | nil => rfl
  | cons x xs ih =>
    obtain ⟨r, hr⟩ := hup ns x st
    simp [storeAccepts, hr, ih]

/-- The loop of `Update` over a first part `pre` of resources none of which
leaves through line 131: either the store accepts the `Update` of each, with
its rule appended, and the loop goes on with the rest from the world this
leaves, or the store refuses one of them and the loop returns an error there. -/
theorem updateItems_append_miss (v : VirtualService σ) (s : Shift) (subsetName : String)
    (err : Option Error) (ir : IstioRules)
    (hir : ∀ w : World σ, (v.Create s w).1 = .ok ir)
    (pre rest : List v1alpha32.VirtualService) (w : World σ)
    (hpre : ∀ x ∈ pre, updateHttp subsetName x.Spec.Http = false) :
    (storeAccepts v.Istio v.Namespace (pre.map (fun x =>
        { x with Spec := { x.Spec with
            Http := x.Spec.Http ++ [ir.MatchDestination] } })) w.store = true ∧
        ∃ w2 : World σ,
          updateItems v s subsetName err (pre ++ rest) w =
            updateItems v s subsetName err rest w2 ∧
          w2.calls = w.calls ++ pre.map (fun x => Call.Update v.Namespace
              { x with Spec := { x.Spec with
                  Http := x.Spec.Http ++ [ir.MatchDestination] } }) ∧
          w2.store = storeAfterUpdates v.Istio v.Namespace (pre.map (fun x =>
              { x with Spec := { x.Spec with
                  Http := x.Spec.Http ++ [ir.MatchDestination] } })) w.store) ∨
      (storeAccepts v.Istio v.Namespace (pre.map (fun x =>
          { x with Spec := { x.Spec with
              Http := x.Spec.Http ++ [ir.MatchDestination] } })) w.store = false ∧
        ∃ e n, n < pre.length ∧
          (updateItems v s subsetName err (pre ++ rest) w).1 = some e ∧
          (updateItems v s subsetName err (pre ++ rest) w).2.calls =
            w.calls ++ (pre.take (n + 1)).map (fun x => Call.Update v.Namespace
                { x with Spec := { x.Spec with
                    Http := x.Spec.Http ++ [ir.MatchDestination] } }) ∧
          (updateItems v s subsetName err (pre ++ rest) w).2.store =
            storeAfterUpdates v.Istio v.Namespace ((pre.take (n + 1)).map (fun x =>
                { x with Spec := { x.Spec with
                    Http := x.Spec.Http ++ [ir.MatchDestination] } }))
              w.store) := by
  induction pre generalizing w with
  | nil =>
    left
    exact ⟨rfl, w, rfl, by simp, rfl⟩
  | cons x pre ih =>
    have hx : updateHttp subsetName x.Spec.Http = false := hpre x (List.mem_cons_self _ _)
    have hu1 := UpdateVirtualService_fst v
        { x with Spec := { x.Spec with
            Http := x.Spec.Http ++ [ir.MatchDestination] } } (v.Create s w).2
    have hu2 := UpdateVirtualService_calls v
        { x with Spec := { x.Spec with
            Http := x.Spec.Http ++ [ir.MatchDestination] } } (v.Create s w).2
    have hu3 := UpdateVirtualService_store v
        { x with Spec := { x.Spec with
            Http := x.Spec.Http ++ [ir.MatchDestination] } } (v.Create s w).2
    rw [(Create_frame v s w).2] at hu2
    rw [(Create_frame v s w).1] at hu1 hu3
    rw [List.cons_append, updateItems_cons_miss v s subsetName err ir hir x _ w hx]
    rcases hu : UpdateVirtualService v
        { x with Spec := { x.Spec with
            Http := x.Spec.Http ++ [ir.MatchDestination] } } (v.Create s w).2 with ⟨e, w2⟩
    rw [hu] at hu1 hu2 hu3
    have hw2 : w2.calls = w.calls ++ [Call.Update v.Namespace
        { x with Spec := { x.Spec with
            Http := x.Spec.Http ++ [ir.MatchDestination] } }] := hu2
    have hs2 : w2.store = (v.Istio.Update v.Namespace
        { x with Spec := { x.Spec with
            Http := x.Spec.Http ++ [ir.MatchDestination] } } w.store).2 := hu3
    cases hst : (v.Istio.Update v.Namespace
        { x with Spec := { x.Spec with
            Http := x.Spec.Http ++ [ir.MatchDestination] } } w.store).1 with
    | error e2 =>
      rw [hst] at hu1
      have he : e = some e2 := hu1
      subst he
      right
      refine ⟨by simp [storeAccepts, hst], e2, 0, by simp, rfl, ?_, ?_⟩
      · simpa using hw2
      · simpa [storeAfterUpdates] using hs2
    | ok r =>
      rw [hst] at hu1
      have he : e = none := hu1
      subst he
      rcases ih w2 (fun y hy => hpre y (List.mem_cons_of_mem _ hy)) with
        ⟨hacc, w3, h1, h2, h3⟩ | ⟨hacc, e3, n, hn, h1, h2, h3⟩
      · left
        refine ⟨?_, w3, h1, ?_, ?_⟩
        · simpa [storeAccepts, hst, hs2] using hacc
        · rw [h2, hw2]
          simp
        · rw [h3, hs2]
          simp [storeAfterUpdates]
      · right
        refine ⟨?_, e3, n + 1, by simpa using hn, h1, ?_, ?_⟩
        · simpa [storeAccepts, hst, hs2] using hacc
        · simp only []
          rw [h2, hw2]
          simp
        · simp only []
          rw [h3, hs2]
          simp [storeAfterUpdates]

/-- The router's `List` on a store answer with at least one item. -/
theorem List_ok (v : VirtualService σ) (opts : metav1.ListOptions) (w : World σ)
    (vss : v1alpha32.VirtualServiceList) (st : σ)
    (hlist : v.Istio.List v.Namespace opts w.store = (.ok vss, st)) (hne : vss.Items ≠ []) :
    v.List opts w =
      (.ok { VList := vss }, { w.call (.List v.Namespace opts) with store := st }) := by
  have hlen : ¬ vss.Items.length ≤ 0 := by
    have := List.length_pos.2 hne
    omega
  simp [VirtualService.List, hlist, hlen]

end

end router

/-! ## The claims -/

namespace router

section

variable {σ : Type}

/-- C1: a shift with a weight and at least one request header is rejected by
`Validate` before anything else happens: the error is the mode error whatever
the selector builder and the store would answer, and the world is untouched
(no selector built, no store call, no log line). -/
theorem Validate_rejects_both_modes
    (StringifyLabelSelector : String → GoMap String → Except Error String)
    (v : VirtualService σ) (s : Shift) (w : World σ)
    (hw : s.Traffic.Weight ≠ 0) (hh : 0 < s.Traffic.RequestHeaders.len) :
    (v.Validate StringifyLabelSelector s w).1 =
        some "a route needs to be served with a 'weight' or 'request headers', not both" ∧
      (v.Validate StringifyLabelSelector s w).2 = w := by
  simp [VirtualService.Validate, hw, hh]

theorem Validate_rejects_both_modes_witness :
    (shiftOf 10 [("x", "y")]).Traffic.Weight ≠ 0 ∧
      0 < (shiftOf 10 [("x", "y")]).Traffic.RequestHeaders.len ∧
      ((vApi.Validate joinSelector (shiftOf 10 [("x", "y")]) (worldOf [vsOf "api-vs" []])).1 =
          some "a route needs to be served with a 'weight' or 'request headers', not both" ∧
        (vApi.Validate joinSelector (shiftOf 10 [("x", "y")]) (worldOf [vsOf "api-vs" []])).2 =
          worldOf [vsOf "api-vs" []]) :=
  ⟨by decide, by decide,
    Validate_rejects_both_modes joinSelector vApi (shiftOf 10 [("x", "y")])
      (worldOf [vsOf "api-vs" []]) (by decide) (by decide)⟩

/-- C2: when the selector builds, the store lists at least one resource and the
shift is not in both modes, `Validate` fails exactly when the shift has weight
0 and some destination of some rule of some listed resource carries the
computed subset name; a shift with a weight therefore passes. -/
theorem Validate_fails_iff_header_mode_conflict
    (StringifyLabelSelector : String → GoMap String → Except Error String)
    (v : VirtualService σ) (s : Shift) (w : World σ)
    (sel : String) (vss : v1alpha32.VirtualServiceList) (st : σ)
    (hsel : StringifyLabelSelector v.TrackingId s.Selector.Labels = .ok sel)
    (hlist : v.Istio.List v.Namespace { LabelSelector := sel } w.store = (.ok vss, st))
    (hne : vss.Items ≠ [])
    (hmode : ¬ (s.Traffic.Weight ≠ 0 ∧ 0 < s.Traffic.RequestHeaders.len)) :
    ((v.Validate StringifyLabelSelector s w).1 ≠ none ↔
        s.Traffic.Weight = 0 ∧ ∃ vs ∈ vss.Items, ∃ r ∈ vs.Spec.Http, ∃ d ∈ r.Route,
          d.Destination.Subset = v.Name ++ "-" ++ toString v.Build ++ "-" ++ v.Namespace) ∧
      (s.Traffic.Weight ≠ 0 → (v.Validate StringifyLabelSelector s w).1 = none) := by
  have hlist2 := List_ok v { LabelSelector := sel }
    (w.call (.StringifyLabelSelector v.TrackingId s.Selector.Labels)) vss st hlist hne
  have key : (v.Validate StringifyLabelSelector s w).1 =
      (validateItems v s (v.Name ++ "-" ++ toString v.Build ++ "-" ++ v.Namespace) vss.Items
        { (w.call (.StringifyLabelSelector v.TrackingId s.Selector.Labels)).call
            (.List v.Namespace { LabelSelector := sel }) with store := st }).1 := by
    simp only [VirtualService.Validate, if_neg hmode, hsel, hlist2]
  rw [key]
  refine ⟨validateItems_ne_none v s _ vss.Items _, fun hw => ?_⟩
  by_contra hcon
  exact hw ((validateItems_ne_none v s _ vss.Items _).1 hcon).1

theorem Validate_fails_iff_header_mode_conflict_witness :
    ((vApi.Validate joinSelector (shiftOf 0 [("x-version", "v2")])
          (worldOf [vsOf "api-vs" [ruleTo "api-2-default" 10]])).1 ≠ none ↔
        (shiftOf 0 [("x-version", "v2")]).Traffic.Weight = 0 ∧
          ∃ vs ∈ [vsOf "api-vs" [ruleTo "api-2-default" 10]], ∃ r ∈ vs.Spec.Http,
            ∃ d ∈ r.Route, d.Destination.Subset =
              vApi.Name ++ "-" ++ toString vApi.Build ++ "-" ++ vApi.Namespace) ∧
      ((shiftOf 0 [("x-version", "v2")]).Traffic.Weight ≠ 0 →
        (vApi.Validate joinSelector (shiftOf 0 [("x-version", "v2")])
          (worldOf [vsOf "api-vs" [ruleTo "api-2-default" 10]])).1 = none) :=
  Validate_fails_iff_header_mode_conflict joinSelector vApi (shiftOf 0 [("x-version", "v2")])
    (worldOf [vsOf "api-vs" [ruleTo "api-2-default" 10]]) "environment=pipeline-go"
    { Items := [vsOf "api-vs" [ruleTo "api-2-default" 10]] }
    [vsOf "api-vs" [ruleTo "api-2-default" 10]] rfl rfl (by decide) (by decide)

/-- C3 (evaluation): on a store holding one resource "api-vs" with a rule for
subset "api-1-default", `Update` at weight 10 and then `Update` at weight 50
both succeed and leave the resource with two rules for subset "api-2-default",
of weights 10 and 50: the second call adds a destination, it does not replace
the weight of the first. -/
theorem Update_twice_leaves_two_destinations :
    (vApi.Update joinSelector (shiftOf 10 [])
        (worldOf [vsOf "api-vs" [ruleTo "api-1-default" 100]])).1 = none ∧
      (vApi.Update joinSelector (shiftOf 50 [])
        (vApi.Update joinSelector (shiftOf 10 [])
          (worldOf [vsOf "api-vs" [ruleTo "api-1-default" 100]])).2).1 = none ∧
      (vApi.Update joinSelector (shiftOf 50 [])
        (vApi.Update joinSelector (shiftOf 10 [])
          (worldOf [vsOf "api-vs" [ruleTo "api-1-default" 100]])).2).2.store =
        [vsOf "api-vs"
          [ruleTo "api-1-default" 100,
           { Route := [{ Destination :=
                           { Host := "api.domain.io"
                             Subset := "api-2-default"
                             Port := some (v1alpha3.PortSelector.Number 5000) }
                         Weight := 10 }] },
           { Route := [{ Destination :=
                           { Host := "api.domain.io"
                             Subset := "api-2-default"
                             Port := some (v1alpha3.PortSelector.Number 5000) }
                         Weight := 50 }] }]] := by
  decide

/-- C4: when the selector builds, the store lists at least one resource and no
listed destination has the computed subset name as its host, `Update` returns
no error exactly when the store accepts, in list order, the `Update` of every
listed resource with the one rule `Create` builds for the shift appended after
its own rules (as it does when the store's `Update` never fails). Its calls
are then the selector builder, one store `List` and that one store `Update`
per resource, and the store is left as those `Update`s leave it. -/
theorem Update_appends_one_rule_per_resource
    (StringifyLabelSelector : String → GoMap String → Except Error String)
    (v : VirtualService σ) (s : Shift) (w : World σ)
    (sel : String) (vss : v1alpha32.VirtualServiceList) (st : σ)
    (hsel : StringifyLabelSelector v.TrackingId s.Selector.Labels = .ok sel)
    (hlist : v.Istio.List v.Namespace { LabelSelector := sel } w.store = (.ok vss, st))
    (hne : vss.Items ≠ [])
    (hhost : ∀ vs ∈ vss.Items, ∀ r ∈ vs.Spec.Http, ∀ d ∈ r.Route,
      d.Destination.Host ≠ v.Name ++ "-" ++ toString v.Build ++ "-" ++ v.Namespace) :
    ∃ ir, (∀ w1 : World σ, (v.Create s w1).1 = .ok ir) ∧
      ((v.Update StringifyLabelSelector s w).1 = none ↔
        storeAccepts v.Istio v.Namespace (vss.Items.map (fun vs =>
            { vs with Spec := { vs.Spec with
                Http := vs.Spec.Http ++ [ir.MatchDestination] } })) st = true) ∧
      (storeAccepts v.Istio v.Namespace (vss.Items.map (fun vs =>
          { vs with Spec := { vs.Spec with
              Http := vs.Spec.Http ++ [ir.MatchDestination] } })) st = true →
        (v.Update StringifyLabelSelector s w).1 = none ∧
          (v.Update StringifyLabelSelector s w).2.calls =
            w.calls ++
              [Call.StringifyLabelSelector v.TrackingId s.Selector.Labels,
                Call.List v.Namespace { LabelSelector := sel }] ++
              vss.Items.map (fun vs => Call.Update v.Namespace
                  { vs with Spec := { vs.Spec with
                      Http := vs.Spec.Http ++ [ir.MatchDestination] } }) ∧
          (v.Update StringifyLabelSelector s w).2.store =
            storeAfterUpdates v.Istio v.Namespace (vss.Items.map (fun vs =>
                { vs with Spec := { vs.Spec with
                    Http := vs.Spec.Http ++ [ir.MatchDestination] } })) st) ∧
      ((∀ ns x st1, ∃ r, (v.Istio.Update ns x st1).1 = .ok r) →
        storeAccepts v.Istio v.Namespace (vss.Items.map (fun vs =>
            { vs with Spec := { vs.Spec with
                Http := vs.Spec.Http ++ [ir.MatchDestination] } })) st = true) := by
  obtain ⟨ir, hir⟩ := Create_ok v s
  have hlist2 := List_ok v { LabelSelector := sel }
    (w.call (.StringifyLabelSelector v.TrackingId s.Selector.Labels)) vss st hlist hne
  have key : v.Update StringifyLabelSelector s w =
      updateItems v s (v.Name ++ "-" ++ toString v.Build ++ "-" ++ v.Namespace) none
        (vss.Items ++ [])
        { (w.call (.StringifyLabelSelector v.TrackingId s.Selector.Labels)).call
            (.List v.Namespace { LabelSelector := sel }) with store := st } := by
    simp only [VirtualService.Update, hsel, hlist2, List.append_nil]
  have hloop := updateItems_append_miss v s
    (v.Name ++ "-" ++ toString v.Build ++ "-" ++ v.Namespace) none ir hir vss.Items []
    { (w.call (.StringifyLabelSelector v.TrackingId s.Selector.Labels)).call
        (.List v.Namespace { LabelSelector := sel }) with store := st }
    (fun vs hvs => (updateHttp_eq_false _ _).2 (hhost vs hvs))
  rw [key]
  refine ⟨ir, hir, ?_, ?_, fun hup => storeAccepts_of_forall v.Istio v.Namespace hup _ st⟩
  · rcases hloop with ⟨hacc, w2, h1, _, _⟩ | ⟨hacc, e, n, _, h1, _, _⟩
    · simp only [] at hacc
      rw [h1, hacc]
      simp [updateItems]
    · simp only [] at hacc
      rw [h1, hacc]
      simp
  · intro hyes
    rcases hloop with ⟨_, w2, h1, h2, h3⟩ | ⟨hacc, _⟩
    · rw [h1]
      refine ⟨by simp [updateItems], ?_, ?_⟩
      · simp only [updateItems]
        rw [h2]
        simp [World.call]
      · simp only [updateItems]
        rw [h3]
    · simp only [] at hacc
      rw [hacc] at hyes
      exact absurd hyes (by simp)

theorem Update_appends_one_rule_per_resource_witness :
    (∃ ir, (∀ w1 : World (List v1alpha32.VirtualService),
        (vApi.Create (shiftOf 10 []) w1).1 = .ok ir) ∧
      ((vApi.Update joinSelector (shiftOf 10 [])
        (worldOf [vsOf "api-vs" [ruleTo "api-1-default" 100], vsOf "web-vs" []])).1 = none ↔
        storeAccepts vApi.Istio vApi.Namespace
          ([vsOf "api-vs" [ruleTo "api-1-default" 100], vsOf "web-vs" []].map (fun vs =>
              { vs with Spec := { vs.Spec with
                  Http := vs.Spec.Http ++ [ir.MatchDestination] } }))
          [vsOf "api-vs" [ruleTo "api-1-default" 100], vsOf "web-vs" []] = true) ∧
      (storeAccepts vApi.Istio vApi.Namespace
          ([vsOf "api-vs" [ruleTo "api-1-default" 100], vsOf "web-vs" []].map (fun vs =>
              { vs with Spec := { vs.Spec with
                  Http := vs.Spec.Http ++ [ir.MatchDestination] } }))
          [vsOf "api-vs" [ruleTo "api-1-default" 100], vsOf "web-vs" []] = true →
        (vApi.Update joinSelector (shiftOf 10 [])
          (worldOf [vsOf "api-vs" [ruleTo "api-1-default" 100], vsOf "web-vs" []])).1 = none ∧
          (vApi.Update joinSelector (shiftOf 10 [])
            (worldOf [vsOf "api-vs" [ruleTo "api-1-default" 100], vsOf "web-vs" []])).2.calls =
            (worldOf [vsOf "api-vs" [ruleTo "api-1-default" 100], vsOf "web-vs" []]).calls ++
              [Call.StringifyLabelSelector vApi.TrackingId (shiftOf 10 []).Selector.Labels,
                Call.List vApi.Namespace { LabelSelector := "environment=pipeline-go" }] ++
              [vsOf "api-vs" [ruleTo "api-1-default" 100], vsOf "web-vs" []].map
                (fun vs => Call.Update vApi.Namespace
                    { vs with Spec := { vs.Spec with
                        Http := vs.Spec.Http ++ [ir.MatchDestination] } }) ∧
          (vApi.Update joinSelector (shiftOf 10 [])
            (worldOf [vsOf "api-vs" [ruleTo "api-1-default" 100], vsOf "web-vs" []])).2.store =
            storeAfterUpdates vApi.Istio vApi.Namespace
              ([vsOf "api-vs" [ruleTo "api-1-default" 100], vsOf "web-vs" []].map
                (fun vs =>
                    { vs with Spec := { vs.Spec with
                        Http := vs.Spec.Http ++ [ir.MatchDestination] } }))
              [vsOf "api-vs" [ruleTo "api-1-default" 100], vsOf "web-vs" []]) ∧
      ((∀ ns x st1, ∃ r, (vApi.Istio.Update ns x st1).1 = .ok r) →
        storeAccepts vApi.Istio vApi.Namespace
          ([vsOf "api-vs" [ruleTo "api-1-default" 100], vsOf "web-vs" []].map (fun vs =>
              { vs with Spec := { vs.Spec with
                  Http := vs.Spec.Http ++ [ir.MatchDestination] } }))
          [vsOf "api-vs" [ruleTo "api-1-default" 100], vsOf "web-vs" []] = true)) ∧
      (vApi.Update joinSelector (shiftOf 10 [])
        (worldOf [vsOf "api-vs" [ruleTo "api-1-default" 100], vsOf "web-vs" []])).1 = none ∧
      (vApi.Update joinSelector (shiftOf 10 [])
        (worldOf [vsOf "api-vs" [ruleTo "api-1-default" 100], vsOf "web-vs" []])).2.store =
        [vsOf "api-vs"
            [ruleTo "api-1-default" 100,
             { Route := [{ Destination :=
                             { Host := "api.domain.io"
                               Subset := "api-2-default"
                               Port := some (v1alpha3.PortSelector.Number 5000) }
                           Weight := 10 }] }],
          vsOf "web-vs"
            [{ Route := [{ Destination :=
                             { Host := "api.domain.io"
                               Subset := "api-2-default"
                               Port := some (v1alpha3.PortSelector.Number 5000) }
                           Weight := 10 }] }]] ∧
      ({ vApi with Istio := refusingClient }.Update joinSelector (shiftOf 10 [])
        (worldOf [vsOf "api-vs" [ruleTo "api-1-default" 100], vsOf "web-vs" []])).1 =
        some "conflict" :=
  ⟨Update_appends_one_rule_per_resource joinSelector vApi (shiftOf 10 [])
    (worldOf [vsOf "api-vs" [ruleTo "api-1-default" 100], vsOf "web-vs" []])
      "environment=pipeline-go"
      { Items := [vsOf "api-vs" [ruleTo "api-1-default" 100], vsOf "web-vs" []] }
      [vsOf "api-vs" [ruleTo "api-1-default" 100], vsOf "web-vs" []]
      rfl rfl (by decide) (by decide),
    by decide, by decide, by decide⟩

/-- C5 (evaluation): on a resource with a rule of weight 100 and a
header-matched rule, `Clear` succeeds and the one resource it submits to the
store has no rule at all: neither the weighted rule nor the header-matched
rule is retained. -/
theorem Clear_drops_weighted_and_header_rules :
    (vApi.Clear joinSelector (shiftOf 0 [])
        (worldOf [vsOf "api-vs"
          [ruleTo "api-1-default" 100,
           { Match := [{ Headers := ⟨[("x-version", v1alpha3.StringMatch.Exact "v2")]⟩ }]
             Route := [{ Destination :=
                           { Host := "api.domain.io", Subset := "api-2-default" } }] }]])).1 =
        none ∧
      (vApi.Clear joinSelector (shiftOf 0 [])
        (worldOf [vsOf "api-vs"
          [ruleTo "api-1-default" 100,
           { Match := [{ Headers := ⟨[("x-version", v1alpha3.StringMatch.Exact "v2")]⟩ }]
             Route := [{ Destination :=
                           { Host := "api.domain.io", Subset := "api-2-default" } }] }]])).2.calls =
        [Call.StringifyLabelSelector "t" ⟨[("environment", "pipeline-go")]⟩,
          Call.List "default" { LabelSelector := "environment=pipeline-go" },
          Call.Update "default" (vsOf "api-vs" [])] := by
  decide

/-- C6 (evaluation): on a resource whose only rule has weight 0, `Clear` does
not fail: it returns no error, submits the resource with an empty rule list,
and the store then holds the resource without any rule. -/
theorem Clear_persists_empty_rule_list :
    (vApi.Clear joinSelector (shiftOf 0 [])
        (worldOf [vsOf "api-vs" [ruleTo "api-1-default" 0]])).1 = none ∧
      Call.Update "default" (vsOf "api-vs" []) ∈
        (vApi.Clear joinSelector (shiftOf 0 [])
          (worldOf [vsOf "api-vs" [ruleTo "api-1-default" 0]])).2.calls ∧
      (vApi.Clear joinSelector (shiftOf 0 [])
        (worldOf [vsOf "api-vs" [ruleTo "api-1-default" 0]])).2.store = [vsOf "api-vs" []] := by
  decide

/-- C7: with the selector built and a non-empty listing, if the first listed
resource without rules is at position `pre.length`, `Clear` returns an error
and its store `Update` calls are those of an initial part of `pre` only, the
store being left as those calls leave it: the resource without rules and the
resources after it are never submitted. If
every listed resource has a rule and the store's `Update` succeeds, `Clear`
returns no error. -/
theorem Clear_fails_at_first_empty_resource
    (StringifyLabelSelector : String → GoMap String → Except Error String)
    (v : VirtualService σ) (s : Shift) (w : World σ)
    (sel : String) (vss : v1alpha32.VirtualServiceList) (st : σ)
    (hsel : StringifyLabelSelector v.TrackingId s.Selector.Labels = .ok sel)
    (hlist : v.Istio.List v.Namespace { LabelSelector := sel } w.store = (.ok vss, st))
    (hne : vss.Items ≠ []) :
    (∀ pre vs post, vss.Items = pre ++ vs :: post → (∀ x ∈ pre, x.Spec.Http ≠ []) →
        vs.Spec.Http = [] →
        (v.Clear StringifyLabelSelector s w).1 ≠ none ∧
          ∃ n, n ≤ pre.length ∧
            (v.Clear StringifyLabelSelector s w).2.calls =
              w.calls ++
                [Call.StringifyLabelSelector v.TrackingId s.Selector.Labels,
                  Call.List v.Namespace { LabelSelector := sel }] ++
                (pre.take n).map (fun x => Call.Update v.Namespace
                  { x with Spec := { x.Spec with Http := [] } }) ∧
            (v.Clear StringifyLabelSelector s w).2.store =
              storeAfterUpdates v.Istio v.Namespace
                ((pre.take n).map (fun x => { x with Spec := { x.Spec with Http := [] } }))
                st) ∧
      ((∀ x ∈ vss.Items, x.Spec.Http ≠ []) →
        (∀ ns x st1, ∃ r, (v.Istio.Update ns x st1).1 = .ok r) →
        (v.Clear StringifyLabelSelector s w).1 = none) := by
  have hlist2 := List_ok v { LabelSelector := sel }
    (w.call (.StringifyLabelSelector v.TrackingId s.Selector.Labels)) vss st hlist hne
  have key : v.Clear StringifyLabelSelector s w =
      clearItems v vss.Items
        { (w.call (.StringifyLabelSelector v.TrackingId s.Selector.Labels)).call
            (.List v.Namespace { LabelSelector := sel }) with store := st } := by
    simp only [VirtualService.Clear, hsel, hlist2]
  rw [key]
  constructor
  · intro pre vs post hitems hpre hvs
    rw [hitems]
    obtain ⟨h1, n, hn, h2, h3⟩ := clearItems_stops v pre vs post
      { (w.call (.StringifyLabelSelector v.TrackingId s.Selector.Labels)).call
          (.List v.Namespace { LabelSelector := sel }) with store := st } hpre hvs
    refine ⟨h1, n, hn, ?_, h3⟩
    rw [h2]
    simp [World.call]
  · intro hall hup
    exact clearItems_ok v hup vss.Items _ hall

theorem Clear_fails_at_first_empty_resource_witness :
    ((vApi.Clear joinSelector (shiftOf 0 [])
          (worldOf [vsOf "api-vs" [ruleTo "api-1-default" 100], vsOf "web-vs" [],
            vsOf "db-vs" [ruleTo "db-1-default" 100]])).1 ≠ none ∧
        ∃ n, n ≤ [vsOf "api-vs" [ruleTo "api-1-default" 100]].length ∧
          (vApi.Clear joinSelector (shiftOf 0 [])
            (worldOf [vsOf "api-vs" [ruleTo "api-1-default" 100], vsOf "web-vs" [],
              vsOf "db-vs" [ruleTo "db-1-default" 100]])).2.calls =
            (worldOf [vsOf "api-vs" [ruleTo "api-1-default" 100], vsOf "web-vs" [],
              vsOf "db-vs" [ruleTo "db-1-default" 100]]).calls ++
              [Call.StringifyLabelSelector vApi.TrackingId (shiftOf 0 []).Selector.Labels,
                Call.List vApi.Namespace { LabelSelector := "environment=pipeline-go" }] ++
              ([vsOf "api-vs" [ruleTo "api-1-default" 100]].take n).map
                (fun x => Call.Update vApi.Namespace
                  { x with Spec := { x.Spec with Http := [] } }) ∧
          (vApi.Clear joinSelector (shiftOf 0 [])
            (worldOf [vsOf "api-vs" [ruleTo "api-1-default" 100], vsOf "web-vs" [],
              vsOf "db-vs" [ruleTo "db-1-default" 100]])).2.store =
            storeAfterUpdates vApi.Istio vApi.Namespace
              (([vsOf "api-vs" [ruleTo "api-1-default" 100]].take n).map
                (fun x => { x with Spec := { x.Spec with Http := [] } }))
              [vsOf "api-vs" [ruleTo "api-1-default" 100], vsOf "web-vs" [],
                vsOf "db-vs" [ruleTo "db-1-default" 100]]) ∧
      (vApi.Clear joinSelector (shiftOf 0 [])
        (worldOf [vsOf "api-vs" [ruleTo "api-1-default" 100]])).1 = none ∧
      (vApi.Clear joinSelector (shiftOf 0 [])
        (worldOf [vsOf "api-vs" [ruleTo "api-1-default" 100], vsOf "web-vs" [],
          vsOf "db-vs" [ruleTo "db-1-default" 100]])).2.store =
        [vsOf "api-vs" [], vsOf "web-vs" [], vsOf "db-vs" [ruleTo "db-1-default" 100]] :=
  ⟨(Clear_fails_at_first_empty_resource joinSelector vApi (shiftOf 0 [])
      (worldOf [vsOf "api-vs" [ruleTo "api-1-default" 100], vsOf "web-vs" [],
        vsOf "db-vs" [ruleTo "db-1-default" 100]])
      "environment=pipeline-go"
      { Items := [vsOf "api-vs" [ruleTo "api-1-default" 100], vsOf "web-vs" [],
          vsOf "db-vs" [ruleTo "db-1-default" 100]] }
      [vsOf "api-vs" [ruleTo "api-1-default" 100], vsOf "web-vs" [],
        vsOf "db-vs" [ruleTo "db-1-default" 100]]
      rfl rfl (by decide)).1
      [vsOf "api-vs" [ruleTo "api-1-default" 100]] (vsOf "web-vs" [])
      [vsOf "db-vs" [ruleTo "db-1-default" 100]] rfl (by decide) rfl,
    (Clear_fails_at_first_empty_resource joinSelector vApi (shiftOf 0 [])
      (worldOf [vsOf "api-vs" [ruleTo "api-1-default" 100]])
      "environment=pipeline-go"
      { Items := [vsOf "api-vs" [ruleTo "api-1-default" 100]] }
      [vsOf "api-vs" [ruleTo "api-1-default" 100]]
      rfl rfl (by decide)).2 (by decide) (fun _ x _ => ⟨x, rfl⟩),
    by decide⟩

/-- C8: `Create` never fails, and the rule it returns has exactly one
destination: host the shift's hostname, port number the shift's port, subset
`Name-Build-Namespace` with the build in decimal, weight the shift's weight
(0 when unset). For "api", 2, "default" and weight 10 with no headers this is
one destination with subset "api-2-default" and weight 10, and no match. -/
theorem Create_single_destination :
    (∀ (τ : Type) (v : VirtualService τ) (s : Shift) (w : World τ),
      ∃ ir, (v.Create s w).1 = .ok ir ∧
        ir.MatchDestination.Route =
          [{ Destination :=
               { Host := s.Hostname
                 Subset := v.Name ++ "-" ++ Nat.repr v.Build ++ "-" ++ v.Namespace
                 Port := some (v1alpha3.PortSelector.Number s.Port) }
             Weight := s.Traffic.Weight }]) ∧
      (vApi.Create (shiftOf 10 []) (worldOf [])).1 = .ok { MatchDestination :=
        { Match := []
          Route := [{ Destination :=
                        { Host := "api.domain.io"
                          Subset := "api-2-default"
                          Port := some (v1alpha3.PortSelector.Number 5000) }
                      Weight := 10 }] } } := by
  refine ⟨fun τ v s w => ⟨_, Create_fst v s w, rfl⟩, by decide⟩

/-- C9: the rule `Create` returns has no match entry when the shift has no
request header; when it has some, the rule has exactly one match entry, whose
header table has one entry per request header and maps each key to an exact
match on that header's value, and nothing else. -/
theorem Create_match_entries (v : VirtualService σ) (s : Shift) (w : World σ)
    (hwf : s.Traffic.RequestHeaders.WF) :
    ∃ ir, (v.Create s w).1 = .ok ir ∧
      (s.Traffic.RequestHeaders.len = 0 → ir.MatchDestination.Match = []) ∧
      (0 < s.Traffic.RequestHeaders.len →
        ∃ m, ir.MatchDestination.Match = [m] ∧ m.Headers.WF ∧
          m.Headers.len = s.Traffic.RequestHeaders.len ∧
          ∀ k, m.Headers.get? k =
            (s.Traffic.RequestHeaders.get? k).map v1alpha3.StringMatch.Exact) := by
  refine ⟨_, Create_fst v s w, ?_, ?_⟩
  · intro h0
    simp [h0]
  · intro hpos
    have hfold := GoMap.foldl_set_entries v1alpha3.StringMatch.Exact
      s.Traffic.RequestHeaders.entries GoMap.empty hwf (by simp [GoMap.empty])
    refine ⟨{ Headers := ⟨s.Traffic.RequestHeaders.entries.map
      (fun kv => (kv.1, v1alpha3.StringMatch.Exact kv.2))⟩ }, ?_, ?_, ?_, ?_⟩
    · rw [if_pos hpos, hfold]
      rfl
    · simpa [GoMap.WF, Function.comp_def] using hwf
    · simp [GoMap.len]
    · intro k
      simp only [GoMap.get?]
      exact GoMap.lookup_map_snd _ k _

theorem Create_match_entries_witness :
    (shiftOf 0 [("x-version", "v2")]).Traffic.RequestHeaders.WF ∧
      (∃ ir, (vApi.Create (shiftOf 0 [("x-version", "v2")]) (worldOf [])).1 = .ok ir ∧
        ((shiftOf 0 [("x-version", "v2")]).Traffic.RequestHeaders.len = 0 →
          ir.MatchDestination.Match = []) ∧
        (0 < (shiftOf 0 [("x-version", "v2")]).Traffic.RequestHeaders.len →
          ∃ m, ir.MatchDestination.Match = [m] ∧ m.Headers.WF ∧
            m.Headers.len = (shiftOf 0 [("x-version", "v2")]).Traffic.RequestHeaders.len ∧
            ∀ k, m.Headers.get? k =
              ((shiftOf 0 [("x-version", "v2")]).Traffic.RequestHeaders.get? k).map
                v1alpha3.StringMatch.Exact)) ∧
      (vApi.Create (shiftOf 0 [("x-version", "v2")]) (worldOf [])).1 = .ok { MatchDestination :=
        { Match := [{ Headers := ⟨[("x-version", v1alpha3.StringMatch.Exact "v2")]⟩ }]
          Route := [{ Destination :=
                        { Host := "api.domain.io"
                          Subset := "api-2-default"
                          Port := some (v1alpha3.PortSelector.Number 5000) }
                      Weight := 0 }] } } :=
  ⟨by decide,
    Create_match_entries vApi (shiftOf 0 [("x-version", "v2")]) (worldOf []) (by decide),
    by decide⟩

/-- C10 (counterexample): for the shift of weight 10 with request header
x = y, `Update` builds the selector, calls the store's `List` and then the
store's `Update`, and the stored resource has gained a rule. -/
theorem Update_both_modes_reaches_store :
    (shiftOf 10 [("x", "y")]).Traffic.Weight ≠ 0 ∧
      0 < (shiftOf 10 [("x", "y")]).Traffic.RequestHeaders.len ∧
      (vApi.Update joinSelector (shiftOf 10 [("x", "y")])
        (worldOf [vsOf "api-vs" []])).2.calls =
        [Call.StringifyLabelSelector "t" ⟨[("environment", "pipeline-go")]⟩,
          Call.List "default" { LabelSelector := "environment=pipeline-go" },
          Call.Update "default" (vsOf "api-vs"
            [{ Match := [{ Headers := ⟨[("x", v1alpha3.StringMatch.Exact "y")]⟩ }]
               Route := [{ Destination :=
                             { Host := "api.domain.io"
                               Subset := "api-2-default"
                               Port := some (v1alpha3.PortSelector.Number 5000) }
                           Weight := 10 }] }])] ∧
      (vApi.Update joinSelector (shiftOf 10 [("x", "y")])
        (worldOf [vsOf "api-vs" []])).2.store ≠ (worldOf [vsOf "api-vs" []]).store := by
  decide

/-- C10 (amended): for a shift with both a weight and request headers, `Update`
makes no store call, and leaves the store as it was, when the selector fails
to build; when the selector builds, `Update` calls the store's `List` with
that selector, and every call after it is a store `Update`. -/
theorem Update_both_modes_store_calls
    (StringifyLabelSelector : String → GoMap String → Except Error String)
    (v : VirtualService σ) (s : Shift) (w : World σ)
    (_hw : s.Traffic.Weight ≠ 0) (_hh : 0 < s.Traffic.RequestHeaders.len) :
    (∀ e, StringifyLabelSelector v.TrackingId s.Selector.Labels = .error e →
        (v.Update StringifyLabelSelector s w).1 = some e ∧
          (v.Update StringifyLabelSelector s w).2.store = w.store ∧
          (v.Update StringifyLabelSelector s w).2.calls =
            w.calls ++ [Call.StringifyLabelSelector v.TrackingId s.Selector.Labels]) ∧
      (∀ sel, StringifyLabelSelector v.TrackingId s.Selector.Labels = .ok sel →
        ∃ xs : List v1alpha32.VirtualService,
          (v.Update StringifyLabelSelector s w).2.calls =
            w.calls ++
              [Call.StringifyLabelSelector v.TrackingId s.Selector.Labels,
                Call.List v.Namespace { LabelSelector := sel }] ++
              xs.map (Call.Update v.Namespace)) := by
  constructor
  · intro e he
    simp [VirtualService.Update, he, World.call]
  · intro sel hsel
    have hl := List_calls v { LabelSelector := sel }
      (w.call (.StringifyLabelSelector v.TrackingId s.Selector.Labels))
    rcases hr : v.List { LabelSelector := sel }
      (w.call (.StringifyLabelSelector v.TrackingId s.Selector.Labels)) with ⟨r, w2⟩
    rw [hr] at hl
    have hw2 : w2.calls = w.calls ++
        [Call.StringifyLabelSelector v.TrackingId s.Selector.Labels,
          Call.List v.Namespace { LabelSelector := sel }] := by
      simpa [World.call] using hl
    cases r with
    | error e =>
      refine ⟨[], ?_⟩
      simp only [VirtualService.Update, hsel, hr]
      simpa using hw2
    | ok vss =>
      obtain ⟨xs, hxs⟩ := updateItems_calls v s
        (v.Name ++ "-" ++ toString v.Build ++ "-" ++ v.Namespace) none vss.VList.Items w2
      refine ⟨xs, ?_⟩
      simp only [VirtualService.Update, hsel, hr]
      rw [hxs, hw2]

theorem Update_both_modes_store_calls_witness :
    (∀ e, joinSelector vApi.TrackingId (shiftOf 10 [("x", "y")]).Selector.Labels = .error e →
        (vApi.Update joinSelector (shiftOf 10 [("x", "y")]) (worldOf [vsOf "api-vs" []])).1 =
            some e ∧
          (vApi.Update joinSelector (shiftOf 10 [("x", "y")])
            (worldOf [vsOf "api-vs" []])).2.store = (worldOf [vsOf "api-vs" []]).store ∧
          (vApi.Update joinSelector (shiftOf 10 [("x", "y")])
            (worldOf [vsOf "api-vs" []])).2.calls =
            (worldOf [vsOf "api-vs" []]).calls ++
              [Call.StringifyLabelSelector vApi.TrackingId
                (shiftOf 10 [("x", "y")]).Selector.Labels]) ∧
      (∀ sel, joinSelector vApi.TrackingId (shiftOf 10 [("x", "y")]).Selector.Labels = .ok sel →
        ∃ xs : List v1alpha32.VirtualService,
          (vApi.Update joinSelector (shiftOf 10 [("x", "y")])
            (worldOf [vsOf "api-vs" []])).2.calls =
            (worldOf [vsOf "api-vs" []]).calls ++
              [Call.StringifyLabelSelector vApi.TrackingId
                (shiftOf 10 [("x", "y")]).Selector.Labels,
                Call.List vApi.Namespace { LabelSelector := sel }] ++
              xs.map (Call.Update vApi.Namespace)) :=
  Update_both_modes_store_calls joinSelector vApi (shiftOf 10 [("x", "y")])
    (worldOf [vsOf "api-vs" []]) (by decide) (by decide)

/-- C11 (counterexample): the routers ("a-1", 2, "ns") and ("a", 1, "2-ns")
differ in all three components and compute the same subset name "a-1-2-ns":
`Create` returns the same rule for both. -/
theorem Create_subset_collision :
    ("a-1" ≠ "a" ∧ (2 : Nat) ≠ 1 ∧ "ns" ≠ "2-ns") ∧
      ({ vApi with Name := "a-1", Build := 2, Namespace := "ns" }.Create
          (shiftOf 10 []) (worldOf [])).1 =
        ({ vApi with Name := "a", Build := 1, Namespace := "2-ns" }.Create
          (shiftOf 10 []) (worldOf [])).1 ∧
      ({ vApi with Name := "a-1", Build := 2, Namespace := "ns" }.Create
          (shiftOf 10 []) (worldOf [])).1 = .ok { MatchDestination :=
        { Route := [{ Destination :=
                        { Host := "api.domain.io"
                          Subset := "a-1-2-ns"
                          Port := some (v1alpha3.PortSelector.Number 5000) }
                      Weight := 10 }] } } := by
  decide

/-- C11 (amended): two routers that differ in name, build or namespace, and
whose names both have no hyphen, or whose namespaces both have no hyphen, give
the destination of their created rule different subset names. -/
theorem Create_subset_distinct {τ : Type} (v1 : VirtualService σ) (v2 : VirtualService τ)
    (s1 s2 : Shift) (w1 : World σ) (w2 : World τ)
    (hfree : ('-' ∉ v1.Name.data ∧ '-' ∉ v2.Name.data) ∨
      ('-' ∉ v1.Namespace.data ∧ '-' ∉ v2.Namespace.data))
    (hne : v1.Name ≠ v2.Name ∨ v1.Build ≠ v2.Build ∨ v1.Namespace ≠ v2.Namespace) :
    ∃ ir1 ir2 n1 n2, (v1.Create s1 w1).1 = .ok ir1 ∧ (v2.Create s2 w2).1 = .ok ir2 ∧
      ir1.MatchDestination.Route.map (fun d => d.Destination.Subset) = [n1] ∧
      ir2.MatchDestination.Route.map (fun d => d.Destination.Subset) = [n2] ∧
      n1 = v1.Name ++ "-" ++ toString v1.Build ++ "-" ++ v1.Namespace ∧
      n2 = v2.Name ++ "-" ++ toString v2.Build ++ "-" ++ v2.Namespace ∧
      n1 ≠ n2 := by
  refine ⟨_, _, _, _, Create_fst v1 s1 w1, Create_fst v2 s2 w2, rfl, rfl, rfl, rfl, ?_⟩
  intro heq
  obtain ⟨ha, hb, hc⟩ := subsetName_inj _ _ _ _ _ _ hfree heq
  rcases hne with h | h | h
  · exact h ha
  · exact h hb
  · exact h hc

theorem Create_subset_distinct_witness :
    ∃ ir1 ir2 n1 n2,
      (vApi.Create (shiftOf 10 []) (worldOf [])).1 = .ok ir1 ∧
      ({ vApi with Build := 3 }.Create (shiftOf 10 []) (worldOf [])).1 = .ok ir2 ∧
      ir1.MatchDestination.Route.map (fun d => d.Destination.Subset) = [n1] ∧
      ir2.MatchDestination.Route.map (fun d => d.Destination.Subset) = [n2] ∧
      n1 = vApi.Name ++ "-" ++ toString vApi.Build ++ "-" ++ vApi.Namespace ∧
      n2 = { vApi with Build := 3 }.Name ++ "-" ++ toString { vApi with Build := 3 }.Build ++
        "-" ++ { vApi with Build := 3 }.Namespace ∧
      n1 ≠ n2 :=
  Create_subset_distinct vApi { vApi with Build := 3 } (shiftOf 10 []) (shiftOf 10 [])
    (worldOf []) (worldOf []) (Or.inr ⟨by decide, by decide⟩) (Or.inr (Or.inl (by decide)))

/-- C12: the router's `List` returns an error exactly when the store's `List`
fails or answers with no item; otherwise it returns the store's answer as it
is, items in the same order and unmodified. -/
theorem List_error_iff_store_error_or_empty (v : VirtualService σ)
    (opts : metav1.ListOptions) (w : World σ) :
    ((∃ err, (v.List opts w).1 = .error err) ↔
        (∃ err, (v.Istio.List v.Namespace opts w.store).1 = .error err) ∨
          ∃ vss, (v.Istio.List v.Namespace opts w.store).1 = .ok vss ∧ vss.Items = []) ∧
      (∀ vss, (v.Istio.List v.Namespace opts w.store).1 = .ok vss → vss.Items ≠ [] →
        (v.List opts w).1 = .ok { VList := vss }) := by
  unfold VirtualService.List
  cases h : (v.Istio.List v.Namespace opts w.store).1 with
  | error e => simp [h]
  | ok vss =>
    by_cases hl : vss.Items = [] <;> simp [h, hl]

theorem List_error_iff_store_error_or_empty_witness :
    ((∃ err, (vApi.List { LabelSelector := "environment=pipeline-go" }
          (worldOf [vsOf "api-vs" []])).1 = .error err) ↔
        (∃ err, (vApi.Istio.List vApi.Namespace { LabelSelector := "environment=pipeline-go" }
          (worldOf [vsOf "api-vs" []]).store).1 = .error err) ∨
          ∃ vss, (vApi.Istio.List vApi.Namespace { LabelSelector := "environment=pipeline-go" }
            (worldOf [vsOf "api-vs" []]).store).1 = .ok vss ∧ vss.Items = []) ∧
      (∀ vss, (vApi.Istio.List vApi.Namespace { LabelSelector := "environment=pipeline-go" }
          (worldOf [vsOf "api-vs" []]).store).1 = .ok vss → vss.Items ≠ [] →
        (vApi.List { LabelSelector := "environment=pipeline-go" }
          (worldOf [vsOf "api-vs" []])).1 = .ok { VList := vss }) :=
  List_error_iff_store_error_or_empty vApi { LabelSelector := "environment=pipeline-go" }
    (worldOf [vsOf "api-vs" []])

/-- C13 (counterexample): over a store that refuses every `Update`, with
"web-vs" (no destination hosted at "api-2-default") listed before "api-vs"
(one destination hosted at "api-2-default"), the selector builds, `List`
succeeds and the first host match is at position 1, yet `Update` returns the
store's error "conflict" and not success, and "web-vs" is left without the
new rule in the store. -/
theorem Update_refused_before_host_match :
    joinSelector "t" (shiftOf 50 []).Selector.Labels = .ok "environment=pipeline-go" ∧
      ({ vApi with Istio := refusingClient }.List { LabelSelector := "environment=pipeline-go" }
        (worldOf [vsOf "web-vs" [ruleTo "api-2-default" 10],
        vsOf "api-vs" [ruleAt "api-2-default" "other" 100],
        vsOf "db-vs" []])).1 = .ok { VList := { Items := [vsOf "web-vs" [ruleTo "api-2-default" 10],
        vsOf "api-vs" [ruleAt "api-2-default" "other" 100],
        vsOf "db-vs" []] } } ∧
      (∀ r ∈ (vsOf "web-vs" [ruleTo "api-2-default" 10]).Spec.Http, ∀ d ∈ r.Route,
        d.Destination.Host ≠ "api-2-default") ∧
      (∃ r ∈ (vsOf "api-vs" [ruleAt "api-2-default" "other" 100]).Spec.Http,
        ∃ d ∈ r.Route, d.Destination.Host = "api-2-default") ∧
      ({ vApi with Istio := refusingClient }.Update joinSelector (shiftOf 50 [])
        (worldOf [vsOf "web-vs" [ruleTo "api-2-default" 10],
        vsOf "api-vs" [ruleAt "api-2-default" "other" 100],
        vsOf "db-vs" []])).1 = some "conflict" ∧
      ({ vApi with Istio := refusingClient }.Update joinSelector (shiftOf 50 [])
        (worldOf [vsOf "web-vs" [ruleTo "api-2-default" 10],
        vsOf "api-vs" [ruleAt "api-2-default" "other" 100],
        vsOf "db-vs" []])).2.store = [vsOf "web-vs" [ruleTo "api-2-default" 10],
        vsOf "api-vs" [ruleAt "api-2-default" "other" 100],
        vsOf "db-vs" []] := by
  decide

/-- C13 (amended): when the selector builds and the store lists
`pre ++ vs :: post`, where `vs` is the first resource with a destination whose
host is the computed subset name, `Update` returns no error exactly when the
store accepts, in order, the `Update` of each resource of `pre` with the
created rule appended after its own unchanged rules. Its store calls are then
one `List` and those `Update`s, the store is left as they leave it, and `vs`
and `post` are not submitted. Whatever the store answers, only an initial part
of `pre` is submitted. Only the `Host` field of existing destinations is
consulted. -/
theorem Update_returns_at_first_host_match
    (StringifyLabelSelector : String → GoMap String → Except Error String)
    (v : VirtualService σ) (s : Shift) (w : World σ)
    (sel : String) (vss : v1alpha32.VirtualServiceList) (st : σ)
    (pre : List v1alpha32.VirtualService) (vs : v1alpha32.VirtualService)
    (post : List v1alpha32.VirtualService)
    (hsel : StringifyLabelSelector v.TrackingId s.Selector.Labels = .ok sel)
    (hlist : v.Istio.List v.Namespace { LabelSelector := sel } w.store = (.ok vss, st))
    (hitems : vss.Items = pre ++ vs :: post)
    (hpre : ∀ x ∈ pre, ∀ r ∈ x.Spec.Http, ∀ d ∈ r.Route,
      d.Destination.Host ≠ v.Name ++ "-" ++ toString v.Build ++ "-" ++ v.Namespace)
    (hvs : ∃ r ∈ vs.Spec.Http, ∃ d ∈ r.Route,
      d.Destination.Host = v.Name ++ "-" ++ toString v.Build ++ "-" ++ v.Namespace) :
    ∃ ir, (∀ w1 : World σ, (v.Create s w1).1 = .ok ir) ∧
      ((v.Update StringifyLabelSelector s w).1 = none ↔
        storeAccepts v.Istio v.Namespace (pre.map (fun x =>
            { x with Spec := { x.Spec with
                Http := x.Spec.Http ++ [ir.MatchDestination] } })) st = true) ∧
      (storeAccepts v.Istio v.Namespace (pre.map (fun x =>
          { x with Spec := { x.Spec with
              Http := x.Spec.Http ++ [ir.MatchDestination] } })) st = true →
        (v.Update StringifyLabelSelector s w).1 = none ∧
          (v.Update StringifyLabelSelector s w).2.calls =
            w.calls ++
              [Call.StringifyLabelSelector v.TrackingId s.Selector.Labels,
                Call.List v.Namespace { LabelSelector := sel }] ++
              pre.map (fun x => Call.Update v.Namespace
                  { x with Spec := { x.Spec with
                      Http := x.Spec.Http ++ [ir.MatchDestination] } }) ∧
          (v.Update StringifyLabelSelector s w).2.store =
            storeAfterUpdates v.Istio v.Namespace (pre.map (fun x =>
                { x with Spec := { x.Spec with
                    Http := x.Spec.Http ++ [ir.MatchDestination] } })) st) ∧
      (∃ n, n ≤ pre.length ∧
        (v.Update StringifyLabelSelector s w).2.calls =
          w.calls ++
            [Call.StringifyLabelSelector v.TrackingId s.Selector.Labels,
              Call.List v.Namespace { LabelSelector := sel }] ++
            (pre.take n).map (fun x => Call.Update v.Namespace
                { x with Spec := { x.Spec with
                    Http := x.Spec.Http ++ [ir.MatchDestination] } }) ∧
        (v.Update StringifyLabelSelector s w).2.store =
          storeAfterUpdates v.Istio v.Namespace ((pre.take n).map (fun x =>
              { x with Spec := { x.Spec with
                  Http := x.Spec.Http ++ [ir.MatchDestination] } })) st) := by
  obtain ⟨ir, hir⟩ := Create_ok v s
  have hne : vss.Items ≠ [] := by
    rw [hitems]
    simp
  have hlist2 := List_ok v { LabelSelector := sel }
    (w.call (.StringifyLabelSelector v.TrackingId s.Selector.Labels)) vss st hlist hne
  have key : v.Update StringifyLabelSelector s w =
      updateItems v s (v.Name ++ "-" ++ toString v.Build ++ "-" ++ v.Namespace) none
        (pre ++ vs :: post)
        { (w.call (.StringifyLabelSelector v.TrackingId s.Selector.Labels)).call
            (.List v.Namespace { LabelSelector := sel }) with store := st } := by
    simp only [VirtualService.Update, hsel, hlist2, hitems]
  have hvs2 : updateHttp (v.Name ++ "-" ++ toString v.Build ++ "-" ++ v.Namespace)
      vs.Spec.Http = true := by
    by_contra hcon
    obtain ⟨r, hr, d, hd, hhost⟩ := hvs
    exact (updateHttp_eq_false _ _).1 (by simpa using hcon) r hr d hd hhost
  have hhit : ∀ w2 : World σ,
      updateItems v s (v.Name ++ "-" ++ toString v.Build ++ "-" ++ v.Namespace) none
        (vs :: post) w2 = (none, w2) := by
    intro w2
    rw [updateItems]
    simp [hvs2]
  have hloop := updateItems_append_miss v s
    (v.Name ++ "-" ++ toString v.Build ++ "-" ++ v.Namespace) none ir hir pre (vs :: post)
    { (w.call (.StringifyLabelSelector v.TrackingId s.Selector.Labels)).call
        (.List v.Namespace { LabelSelector := sel }) with store := st }
    (fun x hx => (updateHttp_eq_false _ _).2 (hpre x hx))
  rw [key]
  refine ⟨ir, hir, ?_, ?_, ?_⟩
  · rcases hloop with ⟨hacc, w2, h1, _, _⟩ | ⟨hacc, e, n, _, h1, _, _⟩
    · simp only [] at hacc
      rw [h1, hhit, hacc]
      simp
    · simp only [] at hacc
      rw [h1, hacc]
      simp
  · intro hyes
    rcases hloop with ⟨_, w2, h1, h2, h3⟩ | ⟨hacc, _⟩
    · rw [h1, hhit]
      refine ⟨rfl, ?_, ?_⟩
      · simp only []
        rw [h2]
        simp [World.call]
      · simp only []
        rw [h3]
    · simp only [] at hacc
      rw [hacc] at hyes
      exact absurd hyes (by simp)
  · rcases hloop with ⟨_, w2, h1, h2, h3⟩ | ⟨_, e, n, hn, _, h2, h3⟩
    · refine ⟨pre.length, Nat.le_refl _, ?_, ?_⟩
      · rw [h1, hhit]
        simp only [List.take_length]
        rw [h2]
        simp [World.call]
      · rw [h1, hhit]
        simp only [List.take_length]
        rw [h3]
    · refine ⟨n + 1, hn, ?_, ?_⟩
      · rw [h2]
        simp [World.call]
      · rw [h3]

theorem Update_returns_at_first_host_match_witness :
    (∃ ir, (∀ w1 : World (List v1alpha32.VirtualService),
        (vApi.Create (shiftOf 50 []) w1).1 = .ok ir) ∧
      ((vApi.Update joinSelector (shiftOf 50 [])
        (worldOf [vsOf "web-vs" [ruleTo "api-2-default" 10],
        vsOf "api-vs" [ruleAt "api-2-default" "other" 100],
        vsOf "db-vs" []])).1 = none ↔
        storeAccepts vApi.Istio vApi.Namespace ([vsOf "web-vs" [ruleTo "api-2-default" 10]].map (fun x =>
            { x with Spec := { x.Spec with
                Http := x.Spec.Http ++ [ir.MatchDestination] } })) [vsOf "web-vs" [ruleTo "api-2-default" 10],
        vsOf "api-vs" [ruleAt "api-2-default" "other" 100],
        vsOf "db-vs" []] = true) ∧
      (storeAccepts vApi.Istio vApi.Namespace ([vsOf "web-vs" [ruleTo "api-2-default" 10]].map (fun x =>
          { x with Spec := { x.Spec with
              Http := x.Spec.Http ++ [ir.MatchDestination] } })) [vsOf "web-vs" [ruleTo "api-2-default" 10],
        vsOf "api-vs" [ruleAt "api-2-default" "other" 100],
        vsOf "db-vs" []] = true →
        (vApi.Update joinSelector (shiftOf 50 [])
          (worldOf [vsOf "web-vs" [ruleTo "api-2-default" 10],
        vsOf "api-vs" [ruleAt "api-2-default" "other" 100],
        vsOf "db-vs" []])).1 = none ∧
          (vApi.Update joinSelector (shiftOf 50 [])
            (worldOf [vsOf "web-vs" [ruleTo "api-2-default" 10],
        vsOf "api-vs" [ruleAt "api-2-default" "other" 100],
        vsOf "db-vs" []])).2.calls =
            (worldOf [vsOf "web-vs" [ruleTo "api-2-default" 10],
        vsOf "api-vs" [ruleAt "api-2-default" "other" 100],
        vsOf "db-vs" []]).calls ++
              [Call.StringifyLabelSelector vApi.TrackingId (shiftOf 50 []).Selector.Labels,
                Call.List vApi.Namespace { LabelSelector := "environment=pipeline-go" }] ++
              [vsOf "web-vs" [ruleTo "api-2-default" 10]].map (fun x => Call.Update vApi.Namespace
                  { x with Spec := { x.Spec with
                      Http := x.Spec.Http ++ [ir.MatchDestination] } }) ∧
          (vApi.Update joinSelector (shiftOf 50 [])
            (worldOf [vsOf "web-vs" [ruleTo "api-2-default" 10],
        vsOf "api-vs" [ruleAt "api-2-default" "other" 100],
        vsOf "db-vs" []])).2.store =
            storeAfterUpdates vApi.Istio vApi.Namespace ([vsOf "web-vs" [ruleTo "api-2-default" 10]].map (fun x =>
                { x with Spec := { x.Spec with
                    Http := x.Spec.Http ++ [ir.MatchDestination] } })) [vsOf "web-vs" [ruleTo "api-2-default" 10],
        vsOf "api-vs" [ruleAt "api-2-default" "other" 100],
        vsOf "db-vs" []]) ∧
      (∃ n, n ≤ [vsOf "web-vs" [ruleTo "api-2-default" 10]].length ∧
        (vApi.Update joinSelector (shiftOf 50 [])
          (worldOf [vsOf "web-vs" [ruleTo "api-2-default" 10],
        vsOf "api-vs" [ruleAt "api-2-default" "other" 100],
        vsOf "db-vs" []])).2.calls =
          (worldOf [vsOf "web-vs" [ruleTo "api-2-default" 10],
        vsOf "api-vs" [ruleAt "api-2-default" "other" 100],
        vsOf "db-vs" []]).calls ++
            [Call.StringifyLabelSelector vApi.TrackingId (shiftOf 50 []).Selector.Labels,
              Call.List vApi.Namespace { LabelSelector := "environment=pipeline-go" }] ++
            ([vsOf "web-vs" [ruleTo "api-2-default" 10]].take n).map (fun x => Call.Update vApi.Namespace
                { x with Spec := { x.Spec with
                    Http := x.Spec.Http ++ [ir.MatchDestination] } }) ∧
        (vApi.Update joinSelector (shiftOf 50 [])
          (worldOf [vsOf "web-vs" [ruleTo "api-2-default" 10],
        vsOf "api-vs" [ruleAt "api-2-default" "other" 100],
        vsOf "db-vs" []])).2.store =
          storeAfterUpdates vApi.Istio vApi.Namespace (([vsOf "web-vs" [ruleTo "api-2-default" 10]].take n).map (fun x =>
              { x with Spec := { x.Spec with
                  Http := x.Spec.Http ++ [ir.MatchDestination] } }))
            [vsOf "web-vs" [ruleTo "api-2-default" 10],
        vsOf "api-vs" [ruleAt "api-2-default" "other" 100],
        vsOf "db-vs" []])) ∧
      (vApi.Update joinSelector (shiftOf 50 []) (worldOf [vsOf "web-vs" [ruleTo "api-2-default" 10],
        vsOf "api-vs" [ruleAt "api-2-default" "other" 100],
        vsOf "db-vs" []])).1 = none ∧
      (vApi.Update joinSelector (shiftOf 50 []) (worldOf [vsOf "web-vs" [ruleTo "api-2-default" 10],
        vsOf "api-vs" [ruleAt "api-2-default" "other" 100],
        vsOf "db-vs" []])).2.store =
        [vsOf "web-vs" [ruleTo "api-2-default" 10,
            { Route := [{ Destination :=
                            { Host := "api.domain.io"
                              Subset := "api-2-default"
                              Port := some (v1alpha3.PortSelector.Number 5000) }
                          Weight := 50 }] }],
          vsOf "api-vs" [ruleAt "api-2-default" "other" 100],
          vsOf "db-vs" []] :=
  ⟨Update_returns_at_first_host_match joinSelector vApi (shiftOf 50 [])
    (worldOf [vsOf "web-vs" [ruleTo "api-2-default" 10],
        vsOf "api-vs" [ruleAt "api-2-default" "other" 100],
        vsOf "db-vs" []])
      "environment=pipeline-go" { Items := [vsOf "web-vs" [ruleTo "api-2-default" 10],
        vsOf "api-vs" [ruleAt "api-2-default" "other" 100],
        vsOf "db-vs" []] } [vsOf "web-vs" [ruleTo "api-2-default" 10],
        vsOf "api-vs" [ruleAt "api-2-default" "other" 100],
        vsOf "db-vs" []] [vsOf "web-vs" [ruleTo "api-2-default" 10]]
      (vsOf "api-vs" [ruleAt "api-2-default" "other" 100])
      [vsOf "db-vs" []]
      rfl rfl rfl (by decide) (by decide),
    by decide, by decide⟩

/-- C14 (counterexample): with a store listing "web-vs" without rules and then
"api-vs" with one rule of weight 100, `Clear` returns the error for "web-vs"
and makes no store `Update`: "api-vs", a matched resource with a non-empty rule
list, is not submitted, and the store is as it was. -/
theorem Clear_stops_before_later_resources :
    (vsOf "api-vs" [ruleTo "api-1-default" 100]).Spec.Http ≠ [] ∧
      (vApi.Clear joinSelector (shiftOf 0 [])
        (worldOf [vsOf "web-vs" [], vsOf "api-vs" [ruleTo "api-1-default" 100]])).1 =
        some ("the clear command will result in a resource 'web-vs' without any rules " ++
          "which is not accepted by istio") ∧
      (vApi.Clear joinSelector (shiftOf 0 [])
        (worldOf [vsOf "web-vs" [], vsOf "api-vs" [ruleTo "api-1-default" 100]])).2.calls =
        [Call.StringifyLabelSelector "t" ⟨[("environment", "pipeline-go")]⟩,
          Call.List "default" { LabelSelector := "environment=pipeline-go" }] ∧
      (vApi.Clear joinSelector (shiftOf 0 [])
        (worldOf [vsOf "web-vs" [], vsOf "api-vs" [ruleTo "api-1-default" 100]])).2.store =
        [vsOf "web-vs" [], vsOf "api-vs" [ruleTo "api-1-default" 100]] := by
  decide

/-- C14 (amended): with the selector built and a non-empty listing, the store
`Update`s of `Clear` are those of an initial part of the listed resources, each
submitted with an empty rule list whatever the weights and header matches of
its rules, and the store is left as those `Update`s leave it; when the store's
`Update` succeeds, that part includes every resource with a non-empty rule
list that has only such resources before it; and the scan with the weight test
changes neither the store nor the calls, only the log. -/
theorem Clear_submits_empty_rule_lists
    (StringifyLabelSelector : String → GoMap String → Except Error String)
    (v : VirtualService σ) (s : Shift) (w : World σ)
    (sel : String) (vss : v1alpha32.VirtualServiceList) (st : σ)
    (hsel : StringifyLabelSelector v.TrackingId s.Selector.Labels = .ok sel)
    (hlist : v.Istio.List v.Namespace { LabelSelector := sel } w.store = (.ok vss, st))
    (hne : vss.Items ≠ []) :
    (∃ n, n ≤ vss.Items.length ∧
        (v.Clear StringifyLabelSelector s w).2.calls =
          w.calls ++
            [Call.StringifyLabelSelector v.TrackingId s.Selector.Labels,
              Call.List v.Namespace { LabelSelector := sel }] ++
            (vss.Items.take n).map (fun x => Call.Update v.Namespace
              { x with Spec := { x.Spec with Http := [] } }) ∧
        (v.Clear StringifyLabelSelector s w).2.store =
          storeAfterUpdates v.Istio v.Namespace
            ((vss.Items.take n).map (fun x => { x with Spec := { x.Spec with Http := [] } }))
            st ∧
        ((∀ ns x st1, ∃ r, (v.Istio.Update ns x st1).1 = .ok r) →
          ∀ pre x post, vss.Items = pre ++ x :: post → (∀ y ∈ pre, y.Spec.Http ≠ []) →
            x.Spec.Http ≠ [] → pre.length < n)) ∧
      (∀ (rs : List v1alpha3.HTTPRoute) (w1 : World σ),
        (clearHttp v.TrackingId rs w1).store = w1.store ∧
          (clearHttp v.TrackingId rs w1).calls = w1.calls) := by
  have hlist2 := List_ok v { LabelSelector := sel }
    (w.call (.StringifyLabelSelector v.TrackingId s.Selector.Labels)) vss st hlist hne
  have key : v.Clear StringifyLabelSelector s w =
      clearItems v vss.Items
        { (w.call (.StringifyLabelSelector v.TrackingId s.Selector.Labels)).call
            (.List v.Namespace { LabelSelector := sel }) with store := st } := by
    simp only [VirtualService.Clear, hsel, hlist2]
  rw [key]
  refine ⟨?_, fun rs w1 => clearHttp_frame v.TrackingId rs w1⟩
  obtain ⟨n, hn, h2, h4, h3⟩ := clearItems_calls v vss.Items
    { (w.call (.StringifyLabelSelector v.TrackingId s.Selector.Labels)).call
        (.List v.Namespace { LabelSelector := sel }) with store := st }
  refine ⟨n, hn, ?_, h4, h3⟩
  rw [h2]
  simp [World.call]

theorem Clear_submits_empty_rule_lists_witness :
    ((∃ n, n ≤ [vsOf "api-vs" [ruleTo "api-1-default" 100],
          vsOf "web-vs" [ruleOn "x-version" "v2" "web-2-default"]].length ∧
        (vApi.Clear joinSelector (shiftOf 0 [])
          (worldOf [vsOf "api-vs" [ruleTo "api-1-default" 100],
            vsOf "web-vs" [ruleOn "x-version" "v2" "web-2-default"]])).2.calls =
          (worldOf [vsOf "api-vs" [ruleTo "api-1-default" 100],
            vsOf "web-vs" [ruleOn "x-version" "v2" "web-2-default"]]).calls ++
            [Call.StringifyLabelSelector vApi.TrackingId (shiftOf 0 []).Selector.Labels,
              Call.List vApi.Namespace { LabelSelector := "environment=pipeline-go" }] ++
            ([vsOf "api-vs" [ruleTo "api-1-default" 100],
              vsOf "web-vs" [ruleOn "x-version" "v2" "web-2-default"]].take n).map
              (fun x => Call.Update vApi.Namespace
                { x with Spec := { x.Spec with Http := [] } }) ∧
        (vApi.Clear joinSelector (shiftOf 0 [])
          (worldOf [vsOf "api-vs" [ruleTo "api-1-default" 100],
            vsOf "web-vs" [ruleOn "x-version" "v2" "web-2-default"]])).2.store =
          storeAfterUpdates vApi.Istio vApi.Namespace
            (([vsOf "api-vs" [ruleTo "api-1-default" 100],
              vsOf "web-vs" [ruleOn "x-version" "v2" "web-2-default"]].take n).map
              (fun x => { x with Spec := { x.Spec with Http := [] } }))
            [vsOf "api-vs" [ruleTo "api-1-default" 100],
              vsOf "web-vs" [ruleOn "x-version" "v2" "web-2-default"]] ∧
        ((∀ ns x st1, ∃ r, (vApi.Istio.Update ns x st1).1 = .ok r) →
          ∀ pre x post, [vsOf "api-vs" [ruleTo "api-1-default" 100],
              vsOf "web-vs" [ruleOn "x-version" "v2" "web-2-default"]] =
              pre ++ x :: post → (∀ y ∈ pre, y.Spec.Http ≠ []) →
            x.Spec.Http ≠ [] → pre.length < n)) ∧
      (∀ (rs : List v1alpha3.HTTPRoute) (w1 : World (List v1alpha32.VirtualService)),
        (clearHttp vApi.TrackingId rs w1).store = w1.store ∧
          (clearHttp vApi.TrackingId rs w1).calls = w1.calls)) ∧
      (vApi.Clear joinSelector (shiftOf 0 [])
        (worldOf [vsOf "api-vs" [ruleTo "api-1-default" 100],
          vsOf "web-vs" [ruleOn "x-version" "v2" "web-2-default"]])).2.calls =
        [Call.StringifyLabelSelector "t" ⟨[("environment", "pipeline-go")]⟩,
          Call.List "default" { LabelSelector := "environment=pipeline-go" },
          Call.Update "default" (vsOf "api-vs" []),
          Call.Update "default" (vsOf "web-vs" [])] ∧
      (vApi.Clear joinSelector (shiftOf 0 [])
        (worldOf [vsOf "api-vs" [ruleTo "api-1-default" 100],
          vsOf "web-vs" [ruleOn "x-version" "v2" "web-2-default"]])).2.store =
        [vsOf "api-vs" [], vsOf "web-vs" []] :=
  ⟨Clear_submits_empty_rule_lists joinSelector vApi (shiftOf 0 [])
      (worldOf [vsOf "api-vs" [ruleTo "api-1-default" 100],
        vsOf "web-vs" [ruleOn "x-version" "v2" "web-2-default"]])
      "environment=pipeline-go"
      { Items := [vsOf "api-vs" [ruleTo "api-1-default" 100],
          vsOf "web-vs" [ruleOn "x-version" "v2" "web-2-default"]] }
      [vsOf "api-vs" [ruleTo "api-1-default" 100],
        vsOf "web-vs" [ruleOn "x-version" "v2" "web-2-default"]]
      rfl rfl (by decide),
    by decide, by decide⟩

end

end router
